import Mathlib

/-!
Shallow embedding of `checkerboard_png.c`.

The program builds a checkerboard as a row-major RGB byte buffer and hands it
to libpng.  The embedding follows `src/checkerboard_png.c` line by line:

* C `int` values are `Int`, wrapped to 32 bits by `wrap32` after every `int`
  operation; `long` and `long long` values are wrapped to 64 bits by `wrap64`
  (LP64, as on the platforms the program is built for);
* the process-wide `static` variables are the fields of `Globals`;
* `rand ()` is a stream `Nat → Nat` of non-negative draws, the number of calls
  made so far being part of the synthesis state;
* every store into `output_buffer` is logged as a `Store`; the buffer contents
  are obtained by replaying the log over the contents `malloc` returned;
* calls into libc and libpng are logged as `Event`s; what those calls answer
  (NULL or not, an internal `png_error`, the result of `fclose`) is read from
  an `Env`.
-/

namespace Checkerboard

/-! ## Machine integers -/

/-- Value of a mathematical integer once stored in a 32-bit two's complement `int`. -/
def wrap32 (z : Int) : Int := (z + 2147483648) % 4294967296 - 2147483648

/-- Value of a mathematical integer once stored in a 64-bit `long` / `long long`. -/
def wrap64 (z : Int) : Int :=
  (z + 9223372036854775808) % 18446744073709551616 - 9223372036854775808

/-- Conversion of an `int` to `unsigned char` (the type of a buffer element). -/
def toUChar (z : Int) : Nat := (z % 256).toNat

/-- Conversion of an `int` to `png_uint_32` (`unsigned int`). -/
def toUInt32 (z : Int) : Int := z % 4294967296

/-- Conversion of an `int` to `size_t` (`unsigned long`). -/
def toSizeT (z : Int) : Int := z % 18446744073709551616

/-- Left shift of an `int`: the count is taken modulo 32 (as the hardware shifter
does) and the result wrapped to 32 bits. -/
def shl32 (a n : Int) : Int := wrap32 (a * 2 ^ (n % 32).toNat)

/-! ## Process-wide state (lines 12-18) -/

/-- The `static` variables of the program. -/
structure Globals where
  output_file : Option String
  png_compression_level_value : Int
  debug_level : Int
  checkerboard_size : Int
  random_bits : Int
  random_mask : Int
  checkerboard_incr : Int
deriving DecidableEq, Repr

/-- Initial values of the `static` variables (lines 12-18). -/
def initial_globals : Globals where
  output_file := none
  png_compression_level_value := 6
  debug_level := 0
  checkerboard_size := 1024
  random_bits := 0
  random_mask := 0
  checkerboard_incr := 1

/-! ## The synthesis loop (lines 29-35 and 64-100) -/

/-- One assignment `output_buffer[index] = value`.  The loop counters in force
and the channel (the constant added to `buffer_pointer`) are kept with it. -/
structure Store where
  row : Int
  column : Int
  x_pixel : Int
  y_pixel : Int
  channel : Int
  index : Int
  value : Nat
deriving DecidableEq, Repr

/-- State threaded through the synthesis loop: how many times `rand ()` has been
called, and the stores made so far, oldest first. -/
structure Synth where
  calls : Nat
  stores : List Store
deriving DecidableEq, Repr

/-- Lines 29-35: `rand () & random_mask`; the call consumes one draw. -/
def random_val (g : Globals) (rand : Nat → Nat) (s : Synth) : Int × Synth :=
  (Int.land (rand s.calls : Int) g.random_mask, { s with calls := s.calls + 1 })

/-- The assignment `output_buffer[buffer_pointer + channel] = v`, with the
conversion of the `int` `v` to `unsigned char`. -/
def store (row column x_pixel y_pixel : Int) (buffer_pointer channel v : Int)
    (s : Synth) : Synth :=
  { s with stores := s.stores ++
      [{ row := row, column := column, x_pixel := x_pixel, y_pixel := y_pixel,
         channel := channel, index := wrap64 (buffer_pointer + channel),
         value := toUChar v }] }

/-- The loop `for (i = 0; i < n; i++) body`, for an `int` counter and bound. -/
def forLoop {σ : Type} (n : Int) (body : Int → σ → σ) (s : σ) : σ :=
  (List.range n.toNat).foldl (fun (s : σ) (i : Nat) => body (i : Int) s) s

/-- Line 78: `x_ptr = (row * checkerboard_incr) + x_pixel`, computed in `int`. -/
def x_ptr (g : Globals) (row x_pixel : Int) : Int :=
  wrap32 (wrap32 (row * g.checkerboard_incr) + x_pixel)

/-- Line 79: `y_ptr = (column * checkerboard_incr) + y_pixel`, computed in `int`. -/
def y_ptr (g : Globals) (column y_pixel : Int) : Int :=
  wrap32 (wrap32 (column * g.checkerboard_incr) + y_pixel)

/-- The `int` product `checkerboard_size * checkerboard_incr` (lines 82, 134, 141, 156). -/
def int_width (g : Globals) : Int := wrap32 (g.checkerboard_size * g.checkerboard_incr)

/-- Lines 80-83: `3LL * ((x_ptr * (size * incr)) + y_ptr)`, computed in `long long`. -/
def buffer_pointer (g : Globals) (row column x_pixel y_pixel : Int) : Int :=
  wrap64 (3 * wrap64 (wrap64 (x_ptr g row x_pixel * int_width g) + y_ptr g column y_pixel))

/-- Line 71: `color = (row ^ column) & 1`. -/
def color (row column : Int) : Int := Int.land (Int.xor row column) 1

/-- Lines 78-96: the body of the innermost loop. -/
def pixel_body (g : Globals) (rand : Nat → Nat) (row column x_pixel y_pixel : Int)
    (s : Synth) : Synth :=
  let bp := buffer_pointer g row column x_pixel y_pixel
  if color row column = 0 then
    let (v0, s) := random_val g rand s
    let s := store row column x_pixel y_pixel bp 0 v0 s
    let (v1, s) := random_val g rand s
    let s := store row column x_pixel y_pixel bp 1 v1 s
    let (v2, s) := random_val g rand s
    store row column x_pixel y_pixel bp 2 v2 s
  else if color row column = 1 then
    let (v0, s) := random_val g rand s
    let s := store row column x_pixel y_pixel bp 0 (Int.xor 255 v0) s
    let (v1, s) := random_val g rand s
    let s := store row column x_pixel y_pixel bp 1 (Int.xor 255 v1) s
    let (v2, s) := random_val g rand s
    store row column x_pixel y_pixel bp 2 (Int.xor 255 v2) s
  else s

/-- Lines 67-100: the four nested loops. -/
def synthesize (g : Globals) (rand : Nat → Nat) : Synth :=
  forLoop g.checkerboard_size (fun row =>
    forLoop g.checkerboard_size (fun column =>
      forLoop g.checkerboard_incr (fun x_pixel =>
        forLoop g.checkerboard_incr (fun y_pixel =>
          pixel_body g rand row column x_pixel y_pixel))))
    { calls := 0, stores := [] }

/-- Contents of the buffer after the logged stores, starting from the contents
`init` that `malloc` returned.  Offsets are relative to `output_buffer`. -/
def replay (init : Int → Nat) (stores : List Store) : Int → Nat :=
  stores.foldl (fun m e => Function.update m e.index e.value) init

/-- The pixel buffer when the synthesis loop has finished. -/
def output_buffer (g : Globals) (rand : Nat → Nat) (init : Int → Nat) : Int → Nat :=
  replay init (synthesize g rand).stores

/-- Line 46: `row_pixels = (long int) checkerboard_size * (long int) checkerboard_incr`. -/
def row_pixels (g : Globals) : Int := wrap64 (g.checkerboard_size * g.checkerboard_incr)

/-- Line 47: `pixel_count = (long int) row_pixels * (long int) row_pixels`. -/
def pixel_count (g : Globals) : Int := wrap64 (row_pixels g * row_pixels g)

/-- Line 48: `output_buffer_size = pixel_count * 3`, in `long`. -/
def output_buffer_size (g : Globals) : Int := wrap64 (pixel_count g * 3)

/-! ## Constants of the C library and of libpng -/

/-- The status `EXIT_SUCCESS` of `<stdlib.h>`. -/
def EXIT_SUCCESS : Int := 0

/-- The status `EXIT_FAILURE` of `<stdlib.h>`. -/
def EXIT_FAILURE : Int := 1

/-- Modelled from the spec: `PNG_UINT_32_MAX` is declared in libpng's `png.h`, which
is not part of the repository; it is the 32-bit row/column limit, `2^32 - 1`. -/
def PNG_UINT_32_MAX : Int := 4294967295

/-- Value of `sizeof (png_byte)`: a `png_byte` is an `unsigned char`. -/
def sizeof_png_byte : Int := 1

/-- Value of `sizeof (png_bytep)`: a pointer, 8 bytes with a 64-bit `long`. -/
def sizeof_png_bytep : Int := 8

/-- The colour types of `png.h`; the program uses `PNG_COLOR_TYPE_RGB`. -/
inductive ColorType where
  | GRAY
  | PALETTE
  | RGB
  | RGB_ALPHA
  | GRAY_ALPHA
deriving DecidableEq, Repr

/-- The interlace types of `png.h`; the program uses `PNG_INTERLACE_NONE`. -/
inductive Interlace where
  | NONE
  | ADAM7
deriving DecidableEq, Repr

/-! ## Calls made by `write_file` and `main`, and what they answer -/

/-- The libpng calls made after `setjmp`, each of which may end in `png_error`. -/
inductive PngCall where
  | init_io
  | set_IHDR
  | set_compression_level
  | malloc
  | set_rows
  | write_png
deriving DecidableEq, Repr

/-- Answers of the C library and of libpng during one run.  They are not
constrained by what was asked: the runs of `write_file` include every run of the
program, and also runs that no machine makes (a `malloc` that grants any size). -/
structure Env where
  /-- Whether `malloc` (line 50) returned a buffer. -/
  malloc_ok : Bool
  /-- Whether `fopen` (line 106) returned a stream. -/
  fopen_ok : Bool
  /-- Whether `png_create_write_struct` (line 112) returned a structure. -/
  create_write_struct_ok : Bool
  /-- Whether `png_create_info_struct` (line 119) returned a structure. -/
  create_info_struct_ok : Bool
  /-- Whether the libpng call ends in an internal `png_error`, that is in a
  `longjmp` to the `setjmp` of line 126. -/
  png_raises : PngCall → Bool
  /-- Whether `png_malloc` (line 144) returned NULL. -/
  png_malloc_null : Bool
  /-- Result of the `fclose` of line 164. -/
  fclose_result : Int

/-- A call into the C library or libpng, or the way the function is left. -/
inductive Event where
  | malloc (size : Int)
  | fprintf_stderr (text : String)
  | usage_stdout
  | usage_stderr
  | fopen (path : String) (mode : String)
  | png_create_write_struct
  | png_create_info_struct
  | png_destroy_write_struct
  | png_init_io
  | png_set_IHDR (width height bit_depth : Int) (color_type : ColorType)
      (interlace : Interlace)
  | png_set_compression_level (level : Int)
  | png_error (text : String)
  | png_malloc (size : Int)
  | png_set_rows (row_pointers : List Int)
  | png_write_png
  | free_output_buffer
  | fclose
  | exit (status : Int)
  | return_from_write_file
deriving DecidableEq, Repr

/-- Lines 21-26: `errno_exit`, which prints the message with `errno` and exits. -/
def errno_exit (s : String) : List Event :=
  [Event.fprintf_stderr (s ++ " error %d, %s\n"), Event.exit EXIT_FAILURE]

/-- Lines 126-132: the block entered when libpng jumps back to `setjmp`. -/
def recovery_block : List Event :=
  [Event.fprintf_stderr "Error during png file processing.\n",
    Event.png_destroy_write_struct, Event.fclose, Event.exit EXIT_FAILURE]

/-- Line 139: `checkerboard_size > PNG_UINT_32_MAX / sizeof (png_byte)`; the
right-hand side is a `size_t`, to which the `int` on the left is converted. -/
def too_tall (g : Globals) : Bool :=
  decide (toSizeT g.checkerboard_size > PNG_UINT_32_MAX / sizeof_png_byte)

/-- Line 141: `(checkerboard_size * checkerboard_incr) > PNG_UINT_32_MAX / 3`; the
right-hand side is an `unsigned int`, to which the `int` product is converted. -/
def too_wide (g : Globals) : Bool :=
  decide (toUInt32 (int_width g) > PNG_UINT_32_MAX / 3)

/-- Lines 145-146: `(long int) sizeof (png_bytep) * (long int) checkerboard_size *
checkerboard_incr`, converted to the `size_t` that `png_malloc` takes. -/
def row_pointers_size (g : Globals) : Int :=
  toSizeT (wrap64 (wrap64 (sizeof_png_bytep * g.checkerboard_size) * g.checkerboard_incr))

/-- Lines 158-159: `row_no * (long int) (checkerboard_size * checkerboard_incr * 3)`,
the offset in `output_buffer` that `row_pointers[row_no]` refers to. -/
def row_offset (g : Globals) (row_no : Int) : Int :=
  wrap64 (row_no * wrap32 (int_width g * 3))

/-- Lines 155-159: the table of row pointers, as offsets into `output_buffer`. -/
def row_pointers (g : Globals) : List Int :=
  forLoop (int_width g) (fun row_no table => table ++ [row_offset g row_no]) []

/-- Lines 160-169: from `png_set_rows` to the end of `write_file`. -/
def write_rows (g : Globals) (env : Env) (output_file_name : String) : List Event :=
  Event.png_set_rows (row_pointers g) ::
  if env.png_raises PngCall.set_rows then recovery_block else
  Event.png_write_png ::
  if env.png_raises PngCall.write_png then recovery_block else
  Event.png_destroy_write_struct :: Event.free_output_buffer :: Event.fclose ::
  if env.fclose_result ≠ 0 then
    Event.fprintf_stderr ("File: " ++ output_file_name ++ "\n") ::
      errno_exit "closing png file"
  else [Event.return_from_write_file]

/-- Lines 133-159: from `png_init_io` to the filling of the row table. -/
def protected_region (g : Globals) (env : Env) (output_file_name : String) : List Event :=
  Event.png_init_io ::
  if env.png_raises PngCall.init_io then recovery_block else
  Event.png_set_IHDR (toUInt32 (int_width g)) (toUInt32 (int_width g)) 8
    ColorType.RGB Interlace.NONE ::
  if env.png_raises PngCall.set_IHDR then recovery_block else
  Event.png_set_compression_level g.png_compression_level_value ::
  if env.png_raises PngCall.set_compression_level then recovery_block else
  if too_tall g then
    Event.png_error "Image is too tall to process in memory" :: recovery_block
  else if too_wide g then
    Event.png_error "Image is too wide to process in memory" :: recovery_block
  else
  Event.png_malloc (row_pointers_size g) ::
  if env.png_raises PngCall.malloc then recovery_block else
  if env.png_malloc_null then
    [Event.fprintf_stderr "Unable to allocate row pointers: %ld bytes.\n",
      Event.png_destroy_write_struct, Event.fclose, Event.exit EXIT_FAILURE]
  else write_rows g env output_file_name

/-- Lines 105-125: opening the file and creating the two libpng structures. -/
def open_and_encode (g : Globals) (env : Env) (output_file_name : String) : List Event :=
  Event.fopen output_file_name "wb" ::
  if env.fopen_ok = false then
    Event.fprintf_stderr ("File: " ++ output_file_name ++ "\n") ::
      errno_exit "Opening png file."
  else
  Event.png_create_write_struct ::
  if env.create_write_struct_ok = false then
    [Event.fprintf_stderr "Unable to allocate png write structure.\n",
      Event.exit EXIT_FAILURE]
  else
  Event.png_create_info_struct ::
  if env.create_info_struct_ok = false then
    [Event.png_destroy_write_struct,
      Event.fprintf_stderr "Unable to allocate png info structure.\n",
      Event.exit EXIT_FAILURE]
  else protected_region g env output_file_name

/-- What one call of `write_file` does: the state in which the synthesis loop
ended (the initial state when it never ran) and the calls made, in order. -/
structure Run where
  synth : Synth
  events : List Event

/-- Lines 38-170. -/
def write_file (g : Globals) (env : Env) (rand : Nat → Nat) (output_file_name : String) :
    Run :=
  if env.malloc_ok = false then
    { synth := { calls := 0, stores := [] },
      events := [Event.malloc (toSizeT (output_buffer_size g)),
        Event.fprintf_stderr "Unable to allocate output buffer of %ld bytes.\n",
        Event.exit EXIT_FAILURE] }
  else
    { synth := synthesize g rand,
      events := Event.malloc (toSizeT (output_buffer_size g)) ::
        open_and_encode g env output_file_name }

/-! ## `main` (lines 206-269) -/

/-- One answer of `getopt_long`; a numeric field is `atoi (optarg)`. -/
inductive Opt where
  | flag
  | help
  | output_file (optarg : String)
  | png_compression_level (value : Int)
  | size (value : Int)
  | random (value : Int)
  | increment (value : Int)
  | debug_level (value : Int)
  | unrecognised
deriving DecidableEq, Repr

/-- Line 243: `(1 << (random_bits + 1)) - 1`, in `int`. -/
def mask_of_bits (random_bits : Int) : Int :=
  wrap32 (shl32 1 (wrap32 (random_bits + 1)) - 1)

/-- Lines 210-258: the option loop.  It ends with the updated variables, or
with the events and the status of an `exit` inside the loop. -/
def parse_options : List Opt → Globals → Except (List Event) Globals
  | [], g => Except.ok g
  | Opt.flag :: rest, g => parse_options rest g
  | Opt.help :: _, _ => Except.error [Event.usage_stdout, Event.exit EXIT_SUCCESS]
  | Opt.output_file optarg :: rest, g => parse_options rest { g with output_file := some optarg }
  | Opt.png_compression_level v :: rest, g =>
      parse_options rest { g with png_compression_level_value := v }
  | Opt.size v :: rest, g => parse_options rest { g with checkerboard_size := v }
  | Opt.random v :: rest, g =>
      parse_options rest { g with random_bits := v, random_mask := mask_of_bits v }
  | Opt.increment v :: rest, g => parse_options rest { g with checkerboard_incr := v }
  | Opt.debug_level v :: rest, g => parse_options rest { g with debug_level := v }
  | Opt.unrecognised :: _, _ => Except.error [Event.usage_stderr, Event.exit EXIT_FAILURE]

/-- What one run of the program does: the variables with which `write_file` was
called and what it did (when it was called), and all calls made, in order. -/
structure MainRun where
  call : Option (Globals × Run)
  events : List Event

/-- Lines 206-269. -/
def main (opts : List Opt) (env : Env) (rand : Nat → Nat) : MainRun :=
  match parse_options opts initial_globals with
  | Except.error events => { call := none, events := events }
  | Except.ok g =>
    match g.output_file with
    | none =>
      { call := none,
        events := [Event.fprintf_stderr "The output file must be specified.\n",
          Event.exit EXIT_FAILURE] }
    | some output_file =>
      let run := write_file g env rand output_file
      { call := some (g, run),
        events :=
          if run.events.getLast? = some Event.return_from_write_file then
            run.events ++ [Event.exit EXIT_SUCCESS]
          else run.events }

/-- The random-bits option occurs among the options. -/
def random_given (opts : List Opt) : Bool :=
  opts.any fun o => match o with
    | Opt.random _ => true
    | _ => false

/-- An environment in which every call succeeds. -/
def env_ok : Env where
  malloc_ok := true
  fopen_ok := true
  create_write_struct_ok := true
  create_info_struct_ok := true
  png_raises := fun _ => false
  png_malloc_null := false
  fclose_result := 0


/-! ## Names for what the synthesis loop does, used to state the results -/

/-- Number of the draw used for channel `k` of pixel `(x, y)` of cell `(r, c)`. -/
def draw_no (g : Globals) (r c x y k : Nat) : Nat :=
  r * (g.checkerboard_size.toNat * (g.checkerboard_incr.toNat * (g.checkerboard_incr.toNat * 3)))
    + c * (g.checkerboard_incr.toNat * (g.checkerboard_incr.toNat * 3))
    + x * (g.checkerboard_incr.toNat * 3) + y * 3 + k

/-- The `int` assigned to a channel of a cell, for the draw `v`. -/
def channel_int (g : Globals) (row column : Int) (v : Nat) : Int :=
  if color row column = 0 then Int.land (v : Int) g.random_mask
  else Int.xor 255 (Int.land (v : Int) g.random_mask)

/-- The store made for channel `k` of pixel `(x, y)` of cell `(r, c)`, when the
draw it consumes is number `n`. -/
def store_at (g : Globals) (rand : Nat → Nat) (r c x y k n : Nat) : Store :=
  { row := r, column := c, x_pixel := x, y_pixel := y, channel := k,
    index := wrap64 (buffer_pointer g r c x y + k),
    value := toUChar (channel_int g r c (rand n)) }

/-- The store the loop makes for channel `k` of pixel `(x, y)` of cell `(r, c)`. -/
def cell_store (g : Globals) (rand : Nat → Nat) (r c x y k : Nat) : Store :=
  store_at g rand r c x y k (draw_no g r c x y k)

/-- Stores of one pass of the innermost loop body, the first draw being number `n`. -/
def pixel_stores (g : Globals) (rand : Nat → Nat) (r c x y n : Nat) : List Store :=
  [store_at g rand r c x y 0 n, store_at g rand r c x y 1 (n + 1),
    store_at g rand r c x y 2 (n + 2)]

/-- Stores of one complete `y_pixel` loop. -/
def line_stores (g : Globals) (rand : Nat → Nat) (r c x n : Nat) : List Store :=
  (List.range g.checkerboard_incr.toNat).flatMap fun y => pixel_stores g rand r c x y (n + y * 3)

/-- Stores of one complete `x_pixel` loop, that is of one cell. -/
def block_stores (g : Globals) (rand : Nat → Nat) (r c n : Nat) : List Store :=
  (List.range g.checkerboard_incr.toNat).flatMap fun x =>
    line_stores g rand r c x (n + x * (g.checkerboard_incr.toNat * 3))

/-- Stores of one complete `column` loop, that is of one row of cells. -/
def row_stores (g : Globals) (rand : Nat → Nat) (r n : Nat) : List Store :=
  (List.range g.checkerboard_size.toNat).flatMap fun c =>
    block_stores g rand r c
      (n + c * (g.checkerboard_incr.toNat * (g.checkerboard_incr.toNat * 3)))

/-- The offset computed by lines 78-83 and the constant `k`, over the naturals. -/
def offset_nat (S I r c x y k : Nat) : Nat :=
  3 * ((r * I + x) * (S * I) + (c * I + y)) + k

/-! ## Concrete configurations and environments -/

/-- The 2 x 2 board of one-pixel cells with `random_bits = 0`. -/
def board_2x2 : Globals :=
  { initial_globals with checkerboard_size := 2, random_bits := 0, random_mask := 1 }

/-- A 2 x 2 board of cells of 2 x 2 pixels, with `random_bits = 2`. -/
def board_2x2_scaled : Globals :=
  { initial_globals with
      checkerboard_size := 2, checkerboard_incr := 2, random_bits := 2, random_mask := 7 }

/-- The widest board an `int` can describe with one-pixel cells. -/
def board_int_max : Globals :=
  { initial_globals with checkerboard_size := 2147483647 }

/-- The narrowest board that the check of line 141 refuses. -/
def board_1431655766 : Globals :=
  { initial_globals with checkerboard_size := 1431655766 }

/-- A stream of draws. -/
def sample_rand : Nat → Nat := fun n => 7 * n + 3

/-- Contents of a freshly allocated buffer. -/
def sample_init : Int → Nat := fun _ => 0

/-- An environment in which `png_create_write_struct` returns NULL. -/
def env_no_write_struct : Env := { env_ok with create_write_struct_ok := false }

/-- An environment in which `png_create_info_struct` returns NULL. -/
def env_no_info_struct : Env := { env_ok with create_info_struct_ok := false }

/-! ## Notions used to state the properties of `main` -/

/-- The option is the output-file option. -/
def is_output_file : Opt → Bool
  | Opt.output_file _ => true
  | _ => false

/-- The option ends the option loop with an `exit`: help, or an unrecognised option. -/
def ends_loop : Opt → Bool
  | Opt.help => true
  | Opt.unrecognised => true
  | _ => false

/-- The value carried by the option lies in the range the configuration allows:
size and increment at least 1, random bits in `[0, 8]`, compression level in
`[0, 9]`; the other options carry no constrained value. -/
def option_in_range : Opt → Bool
  | Opt.size v => decide (1 ≤ v)
  | Opt.increment v => decide (1 ≤ v)
  | Opt.random v => decide (0 ≤ v ∧ v ≤ 8)
  | Opt.png_compression_level v => decide (0 ≤ v ∧ v ≤ 9)
  | _ => true

/-- The value of the compression option, for the options that are one. -/
def compression_value : Opt → Option Int
  | Opt.png_compression_level v => some v
  | _ => none

/-- The last value given with the compression option, or 6 if none was given. -/
def last_compression_level (opts : List Opt) : Int :=
  ((opts.filterMap compression_value).getLast?).getD 6

/-- Options with every numeric value outside its range. -/
def out_of_range_options : List Opt :=
  [Opt.output_file "out.png", Opt.size 0, Opt.random 9, Opt.increment (-1),
    Opt.png_compression_level 10]

/-- Complement of an `int` on 8 bits: `~m & 255`, written `255 ^ (m & 255)`. -/
def not8 (m : Int) : Int := Int.xor 255 (Int.land m 255)

/-- A second stream of draws. -/
def other_rand : Nat → Nat := fun n => n * n + 5

/-- Contents of a buffer in which every byte is 99. -/
def init_99 : Int → Nat := fun _ => 99

/-- A board of 3 x 3 cells with no pixel per cell. -/
def board_3_by_zero : Globals :=
  { initial_globals with checkerboard_size := 3, checkerboard_incr := 0 }

/-- The value of the size option, for the options that are one. -/
def size_value : Opt → Option Int
  | Opt.size v => some v
  | _ => none

/-- The value of the increment option, for the options that are one. -/
def increment_value : Opt → Option Int
  | Opt.increment v => some v
  | _ => none

/-- The value of the random-bits option, for the options that are one. -/
def random_value : Opt → Option Int
  | Opt.random v => some v
  | _ => none

/-- The last value given with the size option, or 1024 if none was given. -/
def last_size (opts : List Opt) : Int :=
  ((opts.filterMap size_value).getLast?).getD 1024

/-- The last value given with the increment option, or 1 if none was given. -/
def last_increment (opts : List Opt) : Int :=
  ((opts.filterMap increment_value).getLast?).getD 1

/-- The last value given with the random-bits option, or 0 if none was given. -/
def last_random (opts : List Opt) : Int :=
  ((opts.filterMap random_value).getLast?).getD 0

/-- The state after the options `-o out.png -s 2`: a 2 x 2 board of one-pixel
cells, with `random_bits` and `random_mask` at their initial value 0. -/
def board_2x2_plain : Globals :=
  { initial_globals with output_file := some "out.png", checkerboard_size := 2 }

/-- The options `-o out.png -s 2 -r 9`: nine random bits, one more than the range
`[0, 8]` allows. -/
def nine_bits_options : List Opt :=
  [Opt.output_file "out.png", Opt.size 2, Opt.random 9]

/-! ## Auxiliary results -/

theorem land_cast (a b : Nat) : Int.land (a : Int) (b : Int) = ((a &&& b : Nat) : Int) := rfl
theorem xor_cast (a b : Nat) : Int.xor (a : Int) (b : Int) = ((a ^^^ b : Nat) : Int) := rfl

theorem color_cast (r c : Nat) : color (r : Int) (c : Int) = (((r ^^^ c) &&& 1 : Nat) : Int) := rfl

theorem color_cast_cases (r c : Nat) : color (r : Int) (c : Int) = 0 ∨ color (r : Int) (c : Int) = 1 := by
  rw [color_cast, Nat.and_one_is_mod]
  omega

theorem forLoop_additive (d : Nat) (f : Nat → Nat → List Store) (body : Int → Synth → Synth)
    (hbody : ∀ (i : Nat) (s : Synth), body (i : Int) s = ⟨s.calls + d, s.stores ++ f i s.calls⟩)
    (n : Int) (s : Synth) :
    forLoop n body s =
      ⟨s.calls + n.toNat * d,
        s.stores ++ (List.range n.toNat).flatMap (fun i => f i (s.calls + i * d))⟩ := by
  unfold forLoop
  generalize n.toNat = m
  induction m with
  | zero => simp
  | succ m ih =>
    rw [List.range_succ, List.foldl_append, ih]
    simp [hbody, List.flatMap_append, Nat.add_mul, Nat.add_assoc]

theorem pixel_body_eq (g : Globals) (rand : Nat → Nat) (r c x y : Nat) (s : Synth) :
    pixel_body g rand r c x y s =
      ⟨s.calls + 3, s.stores ++ [store_at g rand r c x y 0 s.calls,
        store_at g rand r c x y 1 (s.calls + 1), store_at g rand r c x y 2 (s.calls + 2)]⟩ := by
  rcases color_cast_cases r c with h | h
  · simp [pixel_body, h, random_val, store, store_at, channel_int]
  · have h0 : color (r : Int) (c : Int) ≠ 0 := by rw [h]; decide
    simp [pixel_body, h, random_val, store, store_at, channel_int]

theorem synthesize_eq (g : Globals) (rand : Nat → Nat) :
    synthesize g rand =
      ⟨g.checkerboard_size.toNat * (g.checkerboard_size.toNat *
          (g.checkerboard_incr.toNat * (g.checkerboard_incr.toNat * 3))),
        (List.range g.checkerboard_size.toNat).flatMap fun r =>
          (List.range g.checkerboard_size.toNat).flatMap fun c =>
            (List.range g.checkerboard_incr.toNat).flatMap fun x =>
              (List.range g.checkerboard_incr.toNat).flatMap fun y =>
                [cell_store g rand r c x y 0, cell_store g rand r c x y 1,
                  cell_store g rand r c x y 2]⟩ := by
  have hy : ∀ (r c x : Nat) (s : Synth),
      forLoop g.checkerboard_incr (fun y_pixel => pixel_body g rand r c x y_pixel) s =
        ⟨s.calls + g.checkerboard_incr.toNat * 3,
          s.stores ++ line_stores g rand r c x s.calls⟩ := by
    intro r c x s
    exact forLoop_additive 3 (fun y n => pixel_stores g rand r c x y n) _
      (fun y s => pixel_body_eq g rand r c x y s) _ s
  have hx : ∀ (r c : Nat) (s : Synth),
      forLoop g.checkerboard_incr (fun x_pixel =>
          forLoop g.checkerboard_incr (fun y_pixel => pixel_body g rand r c x_pixel y_pixel)) s =
        ⟨s.calls + g.checkerboard_incr.toNat * (g.checkerboard_incr.toNat * 3),
          s.stores ++ block_stores g rand r c s.calls⟩ := by
    intro r c s
    exact forLoop_additive _ (fun x n => line_stores g rand r c x n) _
      (fun x s => hy r c x s) _ s
  have hc : ∀ (r : Nat) (s : Synth),
      forLoop g.checkerboard_size (fun column =>
        forLoop g.checkerboard_incr (fun x_pixel =>
          forLoop g.checkerboard_incr (fun y_pixel =>
            pixel_body g rand r column x_pixel y_pixel))) s =
        ⟨s.calls + g.checkerboard_size.toNat *
          (g.checkerboard_incr.toNat * (g.checkerboard_incr.toNat * 3)),
          s.stores ++ row_stores g rand r s.calls⟩ := by
    intro r s
    exact forLoop_additive _ (fun c n => block_stores g rand r c n) _
      (fun c s => hx r c s) _ s
  unfold synthesize
  rw [forLoop_additive _ (fun r n => row_stores g rand r n) _ (fun r s => hc r s)]
  simp [row_stores, block_stores, line_stores, pixel_stores, cell_store, draw_no, Nat.add_assoc]

theorem mem_stores (g : Globals) (rand : Nat → Nat) (e : Store) :
    e ∈ (synthesize g rand).stores ↔
      ∃ r c x y k : Nat, r < g.checkerboard_size.toNat ∧ c < g.checkerboard_size.toNat ∧
        x < g.checkerboard_incr.toNat ∧ y < g.checkerboard_incr.toNat ∧ k < 3 ∧
        e = cell_store g rand r c x y k := by
  rw [synthesize_eq]
  simp only [List.mem_flatMap, List.mem_range, List.mem_cons, List.mem_singleton,
    List.not_mem_nil, or_false]
  constructor
  · rintro ⟨r, hr, c, hc, x, hx, y, hy, h | h | h⟩
    · exact ⟨r, c, x, y, 0, hr, hc, hx, hy, by decide, h⟩
    · exact ⟨r, c, x, y, 1, hr, hc, hx, hy, by decide, h⟩
    · exact ⟨r, c, x, y, 2, hr, hc, hx, hy, by decide, h⟩
  · rintro ⟨r, c, x, y, k, hr, hc, hx, hy, hk, h⟩
    refine ⟨r, hr, c, hc, x, hx, y, hy, ?_⟩
    interval_cases k
    · exact Or.inl h
    · exact Or.inr (Or.inl h)
    · exact Or.inr (Or.inr h)

/-! ### No wrap-around inside the loop -/

theorem wrap32_cast (n : Nat) (h : n ≤ 2147483647) : wrap32 (n : Int) = n := by
  unfold wrap32; omega

theorem wrap64_cast (n : Nat) (h : n < 9223372036854775808) : wrap64 (n : Int) = n := by
  unfold wrap64; omega

theorem mul_add_lt (a b n m : Nat) (ha : a < n) (hb : b < m) : a * m + b < n * m := by
  have h := Nat.mul_le_mul_right m (Nat.succ_le_of_lt ha)
  rw [Nat.succ_mul] at h
  omega

theorem offset_nat_lt (S I r c x y k : Nat) (hr : r < S) (hc : c < S) (hx : x < I)
    (hy : y < I) (hk : k < 3) : offset_nat S I r c x y k < 3 * ((S * I) * (S * I)) := by
  have hG := mul_add_lt r x S I hr hx
  have hH := mul_add_lt c y S I hc hy
  have hP := mul_add_lt (r * I + x) (c * I + y) (S * I) (S * I) hG hH
  unfold offset_nat
  omega

theorem index_eq (g : Globals) (S I r c x y k : Nat)
    (hS : g.checkerboard_size = S) (hI : g.checkerboard_incr = I)
    (hW : S * I ≤ 2147483647) (h63 : 3 * ((S * I) * (S * I)) < 9223372036854775808)
    (hr : r < S) (hc : c < S) (hx : x < I) (hy : y < I) (hk : k < 3) :
    wrap64 (buffer_pointer g r c x y + k) = (offset_nat S I r c x y k : Int) := by
  have hG := mul_add_lt r x S I hr hx
  have hH := mul_add_lt c y S I hc hy
  have hP := mul_add_lt (r * I + x) (c * I + y) (S * I) (S * I) hG hH
  have hO := offset_nat_lt S I r c x y k hr hc hx hy hk
  unfold offset_nat at hO
  have ex : x_ptr g r x = ((r * I + x : Nat) : Int) := by
    unfold x_ptr
    rw [hI, ← Nat.cast_mul, wrap32_cast _ (by omega), ← Nat.cast_add, wrap32_cast _ (by omega)]
  have ey : y_ptr g c y = ((c * I + y : Nat) : Int) := by
    unfold y_ptr
    rw [hI, ← Nat.cast_mul, wrap32_cast _ (by omega), ← Nat.cast_add, wrap32_cast _ (by omega)]
  have ew : int_width g = ((S * I : Nat) : Int) := by
    unfold int_width
    rw [hS, hI, ← Nat.cast_mul, wrap32_cast _ hW]
  have e3 : ((3 : Nat) : Int) = 3 := rfl
  unfold buffer_pointer offset_nat
  rw [ex, ey, ew, ← Nat.cast_mul, wrap64_cast _ (by omega), ← Nat.cast_add,
    wrap64_cast _ (by omega), ← e3, ← Nat.cast_mul, wrap64_cast _ (by omega), ← Nat.cast_add,
    wrap64_cast _ (by omega)]

/-! ### The offset map is one-to-one and onto -/

theorem div_mod_unique (n a b a' b' : Nat) (hb : b < n) (hb' : b' < n)
    (h : a * n + b = a' * n + b') : a = a' ∧ b = b' := by
  have hn : 0 < n := by omega
  have h1 : (a * n + b) / n = a := by
    rw [Nat.add_comm, Nat.add_mul_div_right _ _ hn, Nat.div_eq_of_lt hb, Nat.zero_add]
  have h2 : (a' * n + b') / n = a' := by
    rw [Nat.add_comm, Nat.add_mul_div_right _ _ hn, Nat.div_eq_of_lt hb', Nat.zero_add]
  have ha : a = a' := by rw [← h1, ← h2, h]
  subst ha
  exact ⟨rfl, by omega⟩

theorem offset_nat_inj (S I r c x y k r' c' x' y' k' : Nat)
    (hc : c < S) (hx : x < I) (hy : y < I) (hk : k < 3)
    (hc' : c' < S) (hx' : x' < I) (hy' : y' < I) (hk' : k' < 3)
    (h : offset_nat S I r c x y k = offset_nat S I r' c' x' y' k') :
    r = r' ∧ c = c' ∧ x = x' ∧ y = y' ∧ k = k' := by
  unfold offset_nat at h
  have hH := mul_add_lt c y S I hc hy
  have hH' := mul_add_lt c' y' S I hc' hy'
  have h3 : (r * I + x) * (S * I) + (c * I + y) = (r' * I + x') * (S * I) + (c' * I + y') ∧
      k = k' := by omega
  obtain ⟨hGH, hkk⟩ := h3
  obtain ⟨hG, hH2⟩ := div_mod_unique (S * I) _ _ _ _ hH hH' hGH
  obtain ⟨h1, h2⟩ := div_mod_unique I _ _ _ _ hx hx' hG
  obtain ⟨h3, h4⟩ := div_mod_unique I _ _ _ _ hy hy' hH2
  exact ⟨h1, h3, h2, h4, hkk⟩

theorem offset_nat_surj (S I a : Nat) (ha : a < 3 * ((S * I) * (S * I))) :
    ∃ r c x y k : Nat, r < S ∧ c < S ∧ x < I ∧ y < I ∧ k < 3 ∧ offset_nat S I r c x y k = a := by
  have hI : 0 < I := by
    rcases Nat.eq_zero_or_pos I with h | h
    · subst h; simp at ha
    · exact h
  have hp : a / 3 < (S * I) * (S * I) := by omega
  have hW : 0 < S * I := by
    rcases Nat.eq_zero_or_pos (S * I) with h | h
    · rw [h] at hp; simp at hp
    · exact h
  have hG : a / 3 / (S * I) < S * I := Nat.div_lt_of_lt_mul hp
  have hH : a / 3 % (S * I) < S * I := Nat.mod_lt _ hW
  refine ⟨a / 3 / (S * I) / I, a / 3 % (S * I) / I, a / 3 / (S * I) % I, a / 3 % (S * I) % I,
    a % 3, ?_, ?_, Nat.mod_lt _ hI, Nat.mod_lt _ hI, Nat.mod_lt _ (by decide), ?_⟩
  · exact Nat.div_lt_of_lt_mul (lt_of_lt_of_eq hG (Nat.mul_comm S I))
  · exact Nat.div_lt_of_lt_mul (lt_of_lt_of_eq hH (Nat.mul_comm S I))
  · unfold offset_nat
    rw [Nat.div_add_mod', Nat.div_add_mod', Nat.div_add_mod']
    omega

/-! ### Reading the buffer back -/

theorem replay_concat (init : Int → Nat) (l : List Store) (e : Store) :
    replay init (l ++ [e]) = Function.update (replay init l) e.index e.value := by
  simp [replay, List.foldl_append]

theorem replay_of_mem (init : Int → Nat) (l : List Store)
    (hl : ∀ e ∈ l, ∀ e' ∈ l, e.index = e'.index → e.value = e'.value)
    (e : Store) (he : e ∈ l) : replay init l e.index = e.value := by
  induction l using List.reverseRecOn with
  | nil => simp at he
  | append_singleton l last ih =>
    rw [replay_concat]
    by_cases h : e.index = last.index
    · rw [h, Function.update_same]
      exact (hl e he last (by simp) h).symm
    · rw [Function.update_noteq h]
      apply ih
      · intro a ha b hb
        exact hl a (by simp [ha]) b (by simp [hb])
      · rcases List.mem_append.1 he with h1 | h1
        · exact h1
        · simp at h1
          subst h1
          exact absurd rfl h

theorem replay_of_not_mem (init : Int → Nat) (l : List Store) (a : Int)
    (hl : ∀ e ∈ l, e.index ≠ a) : replay init l a = init a := by
  induction l using List.reverseRecOn with
  | nil => rfl
  | append_singleton l last ih =>
    rw [replay_concat, Function.update_noteq (fun h => hl last (by simp) h.symm)]
    exact ih (fun e he => hl e (by simp [he]))

theorem cell_store_index (g : Globals) (rand : Nat → Nat) (S I r c x y k : Nat)
    (hS : g.checkerboard_size = S) (hI : g.checkerboard_incr = I)
    (hW : S * I ≤ 2147483647) (h63 : 3 * ((S * I) * (S * I)) < 9223372036854775808)
    (hr : r < S) (hc : c < S) (hx : x < I) (hy : y < I) (hk : k < 3) :
    (cell_store g rand r c x y k).index = (offset_nat S I r c x y k : Int) :=
  index_eq g S I r c x y k hS hI hW h63 hr hc hx hy hk

/-- Under the no-wrap conditions, the byte found after the loop at the offset of
channel `k` of pixel `(x, y)` of cell `(r, c)` is the one stored for it. -/
theorem buffer_at (g : Globals) (rand : Nat → Nat) (init : Int → Nat) (S I r c x y k : Nat)
    (hS : g.checkerboard_size = S) (hI : g.checkerboard_incr = I)
    (hW : S * I ≤ 2147483647) (h63 : 3 * ((S * I) * (S * I)) < 9223372036854775808)
    (hr : r < S) (hc : c < S) (hx : x < I) (hy : y < I) (hk : k < 3) :
    output_buffer g rand init (offset_nat S I r c x y k : Int) =
      toUChar (channel_int g r c (rand (draw_no g r c x y k))) := by
  have hSn : g.checkerboard_size.toNat = S := by rw [hS]; exact Int.toNat_ofNat S
  have hIn : g.checkerboard_incr.toNat = I := by rw [hI]; exact Int.toNat_ofNat I
  have hmem : cell_store g rand r c x y k ∈ (synthesize g rand).stores := by
    rw [mem_stores, hSn, hIn]
    exact ⟨r, c, x, y, k, hr, hc, hx, hy, hk, rfl⟩
  have hcons : ∀ e ∈ (synthesize g rand).stores, ∀ e' ∈ (synthesize g rand).stores,
      e.index = e'.index → e.value = e'.value := by
    intro e he e' he' hidx
    rw [mem_stores, hSn, hIn] at he he'
    obtain ⟨r1, c1, x1, y1, k1, hr1, hc1, hx1, hy1, hk1, rfl⟩ := he
    obtain ⟨r2, c2, x2, y2, k2, hr2, hc2, hx2, hy2, hk2, rfl⟩ := he'
    rw [cell_store_index g rand S I r1 c1 x1 y1 k1 hS hI hW h63 hr1 hc1 hx1 hy1 hk1,
      cell_store_index g rand S I r2 c2 x2 y2 k2 hS hI hW h63 hr2 hc2 hx2 hy2 hk2] at hidx
    have hnat : offset_nat S I r1 c1 x1 y1 k1 = offset_nat S I r2 c2 x2 y2 k2 := by
      exact_mod_cast hidx
    obtain ⟨h1, h2, h3, h4, h5⟩ :=
      offset_nat_inj S I r1 c1 x1 y1 k1 r2 c2 x2 y2 k2 hc1 hx1 hy1 hk1 hc2 hx2 hy2 hk2 hnat
    subst h1 h2 h3 h4 h5
    rfl
  have h := replay_of_mem init _ hcons _ hmem
  rw [cell_store_index g rand S I r c x y k hS hI hW h63 hr hc hx hy hk] at h
  exact h

/-! ### Range of a stored byte -/

theorem toUChar_cast (n : Nat) : toUChar (n : Int) = n % 256 := by
  unfold toUChar; omega

set_option maxRecDepth 100000 in
theorem xor_255 : ∀ w : Nat, w < 256 → 255 ^^^ w = 255 - w := by decide

theorem dark_value_le (m v : Nat) : toUChar (Int.land (v : Int) (m : Int)) ≤ m := by
  rw [land_cast, toUChar_cast]
  exact le_trans (Nat.mod_le _ _) Nat.and_le_right

theorem light_value_ge (m v : Nat) :
    (255 : Int) - m ≤ (toUChar (Int.xor 255 (Int.land (v : Int) (m : Int))) : Int) := by
  have e255 : (255 : Int) = ((255 : Nat) : Int) := rfl
  rw [land_cast, e255, xor_cast, toUChar_cast]
  have hle : v &&& m ≤ m := Nat.and_le_right
  by_cases hw : v &&& m < 256
  · rw [xor_255 _ hw]
    omega
  · omega

theorem light_value_le (m v : Nat) :
    toUChar (Int.xor 255 (Int.land (v : Int) (m : Int))) ≤ 255 := by
  have e255 : (255 : Int) = ((255 : Nat) : Int) := rfl
  rw [land_cast, e255, xor_cast, toUChar_cast]
  omega

/-! ### From the `int` configuration to natural numbers -/

theorem config_nat (g : Globals) (hsize : 1 ≤ g.checkerboard_size)
    (hincr : 1 ≤ g.checkerboard_incr)
    (hW : g.checkerboard_size * g.checkerboard_incr ≤ 2147483647)
    (h63 : 3 * (g.checkerboard_size * g.checkerboard_incr) ^ 2 < 2 ^ 63) :
    ∃ S I : Nat, g.checkerboard_size = S ∧ g.checkerboard_incr = I ∧ 1 ≤ S ∧ 1 ≤ I ∧
      S * I ≤ 2147483647 ∧ 3 * ((S * I) * (S * I)) < 9223372036854775808 := by
  obtain ⟨S, hS⟩ := Int.eq_ofNat_of_zero_le (le_trans (by decide) hsize)
  obtain ⟨I, hI⟩ := Int.eq_ofNat_of_zero_le (le_trans (by decide) hincr)
  refine ⟨S, I, hS, hI, ?_, ?_, ?_, ?_⟩
  · rw [hS] at hsize; exact_mod_cast hsize
  · rw [hI] at hincr; exact_mod_cast hincr
  · rw [hS, hI] at hW; exact_mod_cast hW
  · rw [hS, hI, pow_two] at h63
    have h : ((3 * ((S * I) * (S * I)) : Nat) : Int) < 2 ^ 63 := by
      push_cast; exact h63
    exact_mod_cast h

theorem offset_nat_cast (g : Globals) (S I r c x y k : Nat)
    (hS : g.checkerboard_size = S) (hI : g.checkerboard_incr = I) :
    3 * (((r : Int) * g.checkerboard_incr + x) * (g.checkerboard_size * g.checkerboard_incr)
        + ((c : Int) * g.checkerboard_incr + y)) + k = (offset_nat S I r c x y k : Int) := by
  rw [hS, hI]
  unfold offset_nat
  push_cast
  ring

/-! ### Every iteration stores once -/

theorem nodup_flatMap_range {α : Type} (n : Nat) (f : Nat → List α) (key : α → Nat)
    (hkey : ∀ i, i < n → ∀ a ∈ f i, key a = i) (hnd : ∀ i, i < n → (f i).Nodup) :
    ((List.range n).flatMap f).Nodup := by
  rw [List.nodup_flatMap]
  refine ⟨fun i hi => hnd i (List.mem_range.1 hi), ?_⟩
  refine List.Pairwise.imp_of_mem ?_ (List.nodup_range n)
  intro i j hi hj hij a hai haj
  have h1 := hkey i (List.mem_range.1 hi) a hai
  have h2 := hkey j (List.mem_range.1 hj) a haj
  exact hij (h1.symm.trans h2)

theorem stores_nodup (g : Globals) (rand : Nat → Nat) : (synthesize g rand).stores.Nodup := by
  rw [synthesize_eq]
  refine nodup_flatMap_range _ _ (fun e => e.row.toNat) ?_ ?_
  · intro r _ e he
    simp only [List.mem_flatMap, List.mem_cons, List.mem_singleton, List.not_mem_nil,
      or_false] at he
    obtain ⟨c, -, x, -, y, -, h | h | h⟩ := he <;> simp [h, cell_store, store_at]
  intro r _
  refine nodup_flatMap_range _ _ (fun e => e.column.toNat) ?_ ?_
  · intro c _ e he
    simp only [List.mem_flatMap, List.mem_cons, List.mem_singleton, List.not_mem_nil,
      or_false] at he
    obtain ⟨x, -, y, -, h | h | h⟩ := he <;> simp [h, cell_store, store_at]
  intro c _
  refine nodup_flatMap_range _ _ (fun e => e.x_pixel.toNat) ?_ ?_
  · intro x _ e he
    simp only [List.mem_flatMap, List.mem_cons, List.mem_singleton, List.not_mem_nil,
      or_false] at he
    obtain ⟨y, -, h | h | h⟩ := he <;> simp [h, cell_store, store_at]
  intro x _
  refine nodup_flatMap_range _ _ (fun e => e.y_pixel.toNat) ?_ ?_
  · intro y _ e he
    simp only [List.mem_cons, List.mem_singleton, List.not_mem_nil, or_false] at he
    rcases he with h | h | h <;> simp [h, cell_store, store_at]
  intro y _
  simp [cell_store, store_at]

theorem stores_index_inj (g : Globals) (rand : Nat → Nat) (S I : Nat)
    (hS : g.checkerboard_size = S) (hI : g.checkerboard_incr = I)
    (hW : S * I ≤ 2147483647) (h63 : 3 * ((S * I) * (S * I)) < 9223372036854775808) :
    ∀ e ∈ (synthesize g rand).stores, ∀ e' ∈ (synthesize g rand).stores,
      e.index = e'.index → e = e' := by
  have hSn : g.checkerboard_size.toNat = S := by rw [hS]; exact Int.toNat_ofNat S
  have hIn : g.checkerboard_incr.toNat = I := by rw [hI]; exact Int.toNat_ofNat I
  intro e he e' he' hidx
  rw [mem_stores, hSn, hIn] at he he'
  obtain ⟨r1, c1, x1, y1, k1, hr1, hc1, hx1, hy1, hk1, rfl⟩ := he
  obtain ⟨r2, c2, x2, y2, k2, hr2, hc2, hx2, hy2, hk2, rfl⟩ := he'
  rw [cell_store_index g rand S I r1 c1 x1 y1 k1 hS hI hW h63 hr1 hc1 hx1 hy1 hk1,
    cell_store_index g rand S I r2 c2 x2 y2 k2 hS hI hW h63 hr2 hc2 hx2 hy2 hk2] at hidx
  have hnat : offset_nat S I r1 c1 x1 y1 k1 = offset_nat S I r2 c2 x2 y2 k2 := by
    exact_mod_cast hidx
  obtain ⟨h1, h2, h3, h4, h5⟩ :=
    offset_nat_inj S I r1 c1 x1 y1 k1 r2 c2 x2 y2 k2 hc1 hx1 hy1 hk1 hc2 hx2 hy2 hk2 hnat
  subst h1 h2 h3 h4 h5
  rfl

theorem wrap64_id (z : Int) (h0 : 0 ≤ z) (h1 : z < 9223372036854775808) : wrap64 z = z := by
  unfold wrap64; omega

theorem wrap32_id (z : Int) (h0 : 0 ≤ z) (h1 : z ≤ 2147483647) : wrap32 z = z := by
  unfold wrap32; omega

theorem output_buffer_size_eq (g : Globals) (hsize : 1 ≤ g.checkerboard_size)
    (hincr : 1 ≤ g.checkerboard_incr)
    (h63 : 3 * (g.checkerboard_size * g.checkerboard_incr) ^ 2 < 2 ^ 63) :
    output_buffer_size g = 3 * (g.checkerboard_size * g.checkerboard_incr) ^ 2 := by
  have hW1 : 1 ≤ g.checkerboard_size * g.checkerboard_incr := by nlinarith
  unfold output_buffer_size pixel_count row_pixels
  rw [pow_two] at h63 ⊢
  have hWW : g.checkerboard_size * g.checkerboard_incr ≤
      (g.checkerboard_size * g.checkerboard_incr) * (g.checkerboard_size * g.checkerboard_incr) := by
    nlinarith
  rw [wrap64_id (g.checkerboard_size * g.checkerboard_incr) (by omega) (by omega),
    wrap64_id ((g.checkerboard_size * g.checkerboard_incr) *
      (g.checkerboard_size * g.checkerboard_incr)) (by omega) (by omega),
    wrap64_id ((g.checkerboard_size * g.checkerboard_incr) *
      (g.checkerboard_size * g.checkerboard_incr) * 3) (by omega) (by omega)]
  ring

/-- Range of the byte found, after the loop, at the offset of channel `k` of
pixel `(x, y)` of cell `(r, c)`, for a non-negative mask `m`. -/
theorem buffer_parity (g : Globals) (rand : Nat → Nat) (init : Int → Nat)
    (S I r c x y k m : Nat)
    (hS : g.checkerboard_size = S) (hI : g.checkerboard_incr = I)
    (hW : S * I ≤ 2147483647) (h63 : 3 * ((S * I) * (S * I)) < 9223372036854775808)
    (hr : r < S) (hc : c < S) (hx : x < I) (hy : y < I) (hk : k < 3)
    (hm : g.random_mask = m) :
    ((r ^^^ c) &&& 1 = 0 →
      (output_buffer g rand init (offset_nat S I r c x y k : Int) : Int) ≤ m) ∧
    ((r ^^^ c) &&& 1 = 1 →
      (255 : Int) - m ≤ (output_buffer g rand init (offset_nat S I r c x y k : Int) : Int) ∧
      output_buffer g rand init (offset_nat S I r c x y k : Int) ≤ 255) := by
  rw [buffer_at g rand init S I r c x y k hS hI hW h63 hr hc hx hy hk]
  unfold channel_int
  rw [color_cast, hm]
  constructor
  · intro h0
    rw [h0]
    simp only [Nat.cast_zero, if_true]
    exact_mod_cast dark_value_le m _
  · intro h1
    rw [h1]
    simp only [Nat.cast_one, one_ne_zero, if_false]
    exact ⟨light_value_ge m _, light_value_le m _⟩

theorem mask_nat (g : Globals) (hmask : g.random_mask = 2 ^ (g.random_bits + 1).toNat - 1) :
    ∃ m : Nat, g.random_mask = m := by
  refine ⟨2 ^ (g.random_bits + 1).toNat - 1, ?_⟩
  rw [hmask]
  have h1 : 1 ≤ 2 ^ (g.random_bits + 1).toNat := Nat.one_le_two_pow
  push_cast [Nat.cast_sub h1]
  rfl

/-! ### The row table -/

theorem forLoop_append {α : Type} (f : Int → α) (n : Int) (t : List α) :
    forLoop n (fun i table => table ++ [f i]) t =
      t ++ (List.range n.toNat).map (fun (i : Nat) => f (i : Int)) := by
  unfold forLoop
  generalize n.toNat = m
  induction m with
  | zero => simp
  | succ m ih => rw [List.range_succ, List.foldl_append, ih]; simp

theorem row_pointers_eq (g : Globals) :
    row_pointers g =
      (List.range (int_width g).toNat).map (fun (i : Nat) => row_offset g (i : Int)) := by
  unfold row_pointers
  rw [forLoop_append]
  simp

theorem row_pointers_length (g : Globals) : (row_pointers g).length = (int_width g).toNat := by
  rw [row_pointers_eq]; simp

theorem row_pointers_get (g : Globals) (i : Nat) (hi : i < (int_width g).toNat) :
    (row_pointers g)[i]? = some (row_offset g (i : Int)) := by
  rw [row_pointers_eq]
  simp [hi]

/-! ### The option loop -/

theorem parse_options_mask (opts : List Opt) :
    ∀ g0 g : Globals, parse_options opts g0 = Except.ok g →
      (random_given opts = true → g.random_mask = mask_of_bits g.random_bits) ∧
      (random_given opts = false →
        g.random_bits = g0.random_bits ∧ g.random_mask = g0.random_mask) := by
  induction opts with
  | nil =>
    intro g0 g h
    simp only [parse_options, Except.ok.injEq] at h
    subst h
    simp [random_given]
  | cons o rest ih =>
    intro g0 g h
    cases o with
    | help => simp [parse_options] at h
    | unrecognised => simp [parse_options] at h
    | random v =>
      simp only [parse_options] at h
      obtain ⟨h1, h2⟩ := ih _ g h
      refine ⟨fun _ => ?_, fun hf => by simp [random_given] at hf⟩
      cases hr : random_given rest with
      | true => exact h1 hr
      | false =>
        obtain ⟨hb, hm⟩ := h2 hr
        rw [hm, hb]
    | flag =>
      simp only [parse_options] at h
      simpa [random_given] using ih _ g h
    | output_file optarg =>
      simp only [parse_options] at h
      simpa [random_given] using ih _ g h
    | png_compression_level v =>
      simp only [parse_options] at h
      simpa [random_given] using ih _ g h
    | size v =>
      simp only [parse_options] at h
      simpa [random_given] using ih _ g h
    | increment v =>
      simp only [parse_options] at h
      simpa [random_given] using ih _ g h
    | debug_level v =>
      simp only [parse_options] at h
      simpa [random_given] using ih _ g h

theorem mask_of_bits_eq (b : Int) (h0 : 0 ≤ b) (h8 : b ≤ 8) :
    mask_of_bits b = 2 ^ (b + 1).toNat - 1 := by
  obtain ⟨n, rfl⟩ := Int.eq_ofNat_of_zero_le h0
  have hn : n ≤ 8 := by exact_mod_cast h8
  interval_cases n <;> decide

theorem main_call (opts : List Opt) (env : Env) (rand : Nat → Nat) (g : Globals) (run : Run)
    (h : (main opts env rand).call = some (g, run)) :
    parse_options opts initial_globals = Except.ok g := by
  unfold main at h
  split at h
  · simp at h
  · rename_i g1 hg1
    split at h
    · simp at h
    · simp only [Option.some.injEq, Prod.mk.injEq] at h
      rw [hg1, h.1]

/-! ### The dimension checks when nothing wraps -/

theorem narrow_config (g : Globals) (hsize : 1 ≤ g.checkerboard_size)
    (hincr : 1 ≤ g.checkerboard_incr)
    (h3W : 3 * (g.checkerboard_size * g.checkerboard_incr) ≤ 2147483647) :
    g.checkerboard_size ≤ g.checkerboard_size * g.checkerboard_incr ∧
    g.checkerboard_size * g.checkerboard_incr ≤ 2147483647 ∧
    3 * (g.checkerboard_size * g.checkerboard_incr) ^ 2 < 2 ^ 63 := by
  have h1 : g.checkerboard_size ≤ g.checkerboard_size * g.checkerboard_incr := by nlinarith
  have h2 : g.checkerboard_size * g.checkerboard_incr ≤ 715827882 := by omega
  have h0 : 0 ≤ g.checkerboard_size * g.checkerboard_incr := by omega
  refine ⟨h1, by omega, ?_⟩
  have h3 : (g.checkerboard_size * g.checkerboard_incr) *
      (g.checkerboard_size * g.checkerboard_incr) ≤ 715827882 * 715827882 :=
    mul_self_le_mul_self h0 h2
  rw [pow_two]
  omega

theorem checks_pass (g : Globals) (hsize : 1 ≤ g.checkerboard_size)
    (hincr : 1 ≤ g.checkerboard_incr)
    (h3W : 3 * (g.checkerboard_size * g.checkerboard_incr) ≤ 2147483647) :
    int_width g = g.checkerboard_size * g.checkerboard_incr ∧
    too_tall g = false ∧ too_wide g = false := by
  obtain ⟨h1, h2, -⟩ := narrow_config g hsize hincr h3W
  have hw : int_width g = g.checkerboard_size * g.checkerboard_incr :=
    wrap32_id _ (by omega) h2
  refine ⟨hw, ?_, ?_⟩
  · unfold too_tall toSizeT PNG_UINT_32_MAX sizeof_png_byte
    rw [decide_eq_false_iff_not]
    omega
  · unfold too_wide toUInt32 PNG_UINT_32_MAX
    rw [decide_eq_false_iff_not, hw]
    omega

theorem row_offset_eq (g : Globals) (S I i : Nat)
    (hS : g.checkerboard_size = S) (hI : g.checkerboard_incr = I)
    (h3W : 3 * (S * I) ≤ 2147483647) (hi : i < S * I) :
    row_offset g (i : Int) = ((i * (3 * (S * I)) : Nat) : Int) := by
  have hw : int_width g = ((S * I : Nat) : Int) := by
    unfold int_width
    rw [hS, hI, ← Nat.cast_mul, wrap32_cast _ (by omega)]
  have e3 : ((3 : Nat) : Int) = 3 := rfl
  have hlt : i * (3 * (S * I)) < 2147483647 * 2147483647 :=
    Nat.mul_lt_mul'' (by omega) (by omega)
  unfold row_offset
  rw [hw, ← e3, ← Nat.cast_mul, wrap32_cast _ (by omega), ← Nat.cast_mul, Nat.mul_comm (S * I) 3,
    wrap64_cast _ (by omega)]

theorem scanline_offset (S I i j k : Nat) :
    offset_nat S I (i / I) (j / I) (i % I) (j % I) k = i * (3 * (S * I)) + 3 * j + k := by
  unfold offset_nat
  rw [Nat.div_add_mod', Nat.div_add_mod']
  ring

/-! ### Where `png_error` can occur -/

theorem png_error_not_mem_recovery (text : String) : Event.png_error text ∉ recovery_block := by
  simp [recovery_block]

theorem png_error_not_mem_write_rows (g : Globals) (env : Env) (name text : String) :
    Event.png_error text ∉ write_rows g env name := by
  unfold write_rows
  split_ifs <;> simp [recovery_block, errno_exit]

theorem png_error_protected_region (g : Globals) (env : Env) (name text : String)
    (h : Event.png_error text ∈ protected_region g env name) :
    (text = "Image is too tall to process in memory" ∨
      text = "Image is too wide to process in memory") ∧
    protected_region g env name =
      [Event.png_init_io,
        Event.png_set_IHDR (toUInt32 (int_width g)) (toUInt32 (int_width g)) 8
          ColorType.RGB Interlace.NONE,
        Event.png_set_compression_level g.png_compression_level_value,
        Event.png_error text] ++ recovery_block := by
  have hrec := png_error_not_mem_recovery text
  have hrows := png_error_not_mem_write_rows g env name text
  unfold protected_region at h ⊢
  by_cases h1 : env.png_raises PngCall.init_io = true
  · simp [h1, hrec] at h
  by_cases h2 : env.png_raises PngCall.set_IHDR = true
  · simp [h1, h2, hrec] at h
  by_cases h3 : env.png_raises PngCall.set_compression_level = true
  · simp [h1, h2, h3, hrec] at h
  by_cases h4 : too_tall g = true
  · simp only [h1, h2, h3, h4, if_true, Bool.false_eq_true, if_false, List.mem_cons,
      Event.png_error.injEq, reduceCtorEq, false_or] at h
    rcases h with h | h
    · subst h
      simp [h1, h2, h3, h4]
    · exact absurd h hrec
  by_cases h5 : too_wide g = true
  · simp only [h1, h2, h3, h4, h5, if_true, Bool.false_eq_true, if_false, List.mem_cons,
      Event.png_error.injEq, reduceCtorEq, false_or] at h
    rcases h with h | h
    · subst h
      simp [h1, h2, h3, h4, h5]
    · exact absurd h hrec
  by_cases h6 : env.png_raises PngCall.malloc = true
  · simp [h1, h2, h3, h4, h5, h6, hrec] at h
  by_cases h7 : env.png_malloc_null = true
  · simp [h1, h2, h3, h4, h5, h6, h7] at h
  · simp [h1, h2, h3, h4, h5, h6, h7, hrows] at h

theorem png_error_open_and_encode (g : Globals) (env : Env) (name text : String)
    (h : Event.png_error text ∈ open_and_encode g env name) :
    open_and_encode g env name =
      Event.fopen name "wb" :: Event.png_create_write_struct ::
        Event.png_create_info_struct :: protected_region g env name ∧
    Event.png_error text ∈ protected_region g env name := by
  unfold open_and_encode at h ⊢
  by_cases h1 : env.fopen_ok = false
  · simp [h1, errno_exit] at h
  by_cases h2 : env.create_write_struct_ok = false
  · simp [h1, h2] at h
  by_cases h3 : env.create_info_struct_ok = false
  · simp [h1, h2, h3] at h
  · simp only [Bool.not_eq_false] at h1 h2 h3
    simp only [h1, h2, h3, Bool.true_eq_false, if_false, List.mem_cons, reduceCtorEq,
      false_or] at h
    simp only [h1, h2, h3, Bool.true_eq_false, if_false]
    exact ⟨trivial, h⟩

/-! ### What the option loop leaves in the variables -/

theorem parse_options_no_output (opts : List Opt) :
    ∀ g0 : Globals, (∀ o ∈ opts, is_output_file o = false ∧ ends_loop o = false) →
      ∃ g, parse_options opts g0 = Except.ok g ∧ g.output_file = g0.output_file := by
  induction opts with
  | nil => intro g0 _; exact ⟨g0, rfl, rfl⟩
  | cons o rest ih =>
    intro g0 h
    have hrest : ∀ o ∈ rest, is_output_file o = false ∧ ends_loop o = false :=
      fun o ho => h o (List.mem_cons_of_mem _ ho)
    have ho := h o (List.mem_cons_self _ _)
    cases o with
    | help => simp [ends_loop] at ho
    | unrecognised => simp [ends_loop] at ho
    | output_file optarg => simp [is_output_file] at ho
    | flag => simpa [parse_options] using ih g0 hrest
    | png_compression_level v => simpa [parse_options] using ih _ hrest
    | size v => simpa [parse_options] using ih _ hrest
    | random v => simpa [parse_options] using ih _ hrest
    | increment v => simpa [parse_options] using ih _ hrest
    | debug_level v => simpa [parse_options] using ih _ hrest

theorem parse_options_in_range (opts : List Opt) :
    ∀ g0 g : Globals, parse_options opts g0 = Except.ok g →
      (∀ o ∈ opts, option_in_range o = true) →
      (1 ≤ g0.checkerboard_size ∧ 1 ≤ g0.checkerboard_incr ∧
        (0 ≤ g0.random_bits ∧ g0.random_bits ≤ 8) ∧
        (0 ≤ g0.png_compression_level_value ∧ g0.png_compression_level_value ≤ 9)) →
      1 ≤ g.checkerboard_size ∧ 1 ≤ g.checkerboard_incr ∧
        (0 ≤ g.random_bits ∧ g.random_bits ≤ 8) ∧
        (0 ≤ g.png_compression_level_value ∧ g.png_compression_level_value ≤ 9) := by
  induction opts with
  | nil =>
    intro g0 g h _ h0
    simp only [parse_options, Except.ok.injEq] at h
    subst h
    exact h0
  | cons o rest ih =>
    intro g0 g h hv h0
    have hrest : ∀ o ∈ rest, option_in_range o = true :=
      fun o ho => hv o (List.mem_cons_of_mem _ ho)
    have ho := hv o (List.mem_cons_self _ _)
    obtain ⟨h1, h2, h3, h4⟩ := h0
    cases o with
    | help => simp [parse_options] at h
    | unrecognised => simp [parse_options] at h
    | flag =>
      simp only [parse_options] at h
      exact ih _ g h hrest ⟨h1, h2, h3, h4⟩
    | output_file optarg =>
      simp only [parse_options] at h
      exact ih _ g h hrest ⟨h1, h2, h3, h4⟩
    | debug_level v =>
      simp only [parse_options] at h
      exact ih _ g h hrest ⟨h1, h2, h3, h4⟩
    | png_compression_level v =>
      simp only [option_in_range, decide_eq_true_eq] at ho
      simp only [parse_options] at h
      exact ih _ g h hrest ⟨h1, h2, h3, ho⟩
    | size v =>
      simp only [option_in_range, decide_eq_true_eq] at ho
      simp only [parse_options] at h
      exact ih _ g h hrest ⟨ho, h2, h3, h4⟩
    | random v =>
      simp only [option_in_range, decide_eq_true_eq] at ho
      simp only [parse_options] at h
      exact ih _ g h hrest ⟨h1, h2, ho, h4⟩
    | increment v =>
      simp only [option_in_range, decide_eq_true_eq] at ho
      simp only [parse_options] at h
      exact ih _ g h hrest ⟨h1, ho, h3, h4⟩

theorem getLast?_getD_cons (v d : Int) (l : List Int) :
    ((v :: l).getLast?).getD d = (l.getLast?).getD v := by
  cases l with
  | nil => rfl
  | cons a l =>
    rw [List.getLast?_cons_cons]
    cases h : (a :: l).getLast? with
    | none => simp at h
    | some b => rfl

theorem parse_options_level (opts : List Opt) :
    ∀ g0 g : Globals, parse_options opts g0 = Except.ok g →
      g.png_compression_level_value =
        ((opts.filterMap compression_value).getLast?).getD g0.png_compression_level_value := by
  induction opts with
  | nil =>
    intro g0 g h
    simp only [parse_options, Except.ok.injEq] at h
    subst h
    rfl
  | cons o rest ih =>
    intro g0 g h
    cases o with
    | help => simp [parse_options] at h
    | unrecognised => simp [parse_options] at h
    | png_compression_level v =>
      simp only [parse_options] at h
      rw [ih _ g h]
      simp only [List.filterMap_cons, compression_value]
      rw [getLast?_getD_cons]
    | flag =>
      simp only [parse_options] at h
      simpa [compression_value] using ih _ g h
    | output_file optarg =>
      simp only [parse_options] at h
      simpa [compression_value] using ih _ g h
    | size v =>
      simp only [parse_options] at h
      simpa [compression_value] using ih _ g h
    | random v =>
      simp only [parse_options] at h
      simpa [compression_value] using ih _ g h
    | increment v =>
      simp only [parse_options] at h
      simpa [compression_value] using ih _ g h
    | debug_level v =>
      simp only [parse_options] at h
      simpa [compression_value] using ih _ g h

/-! ### Where `png_set_compression_level` can occur -/

theorem level_not_mem_write_rows (g : Globals) (env : Env) (name : String) (level : Int) :
    Event.png_set_compression_level level ∉ write_rows g env name := by
  unfold write_rows
  split_ifs <;> simp [recovery_block, errno_exit]

theorem level_protected_region (g : Globals) (env : Env) (name : String) (level : Int)
    (h : Event.png_set_compression_level level ∈ protected_region g env name) :
    level = g.png_compression_level_value := by
  have hrows := level_not_mem_write_rows g env name level
  unfold protected_region at h
  by_cases h1 : env.png_raises PngCall.init_io = true
  · simp [h1, recovery_block] at h
  by_cases h2 : env.png_raises PngCall.set_IHDR = true
  · simp [h1, h2, recovery_block] at h
  simp only [h1, h2, Bool.false_eq_true, if_false, List.mem_cons, reduceCtorEq, false_or,
    Event.png_set_compression_level.injEq] at h
  rcases h with h | h
  · exact h
  · exfalso
    revert h
    split_ifs <;> simp [recovery_block, hrows]

theorem level_write_file (g : Globals) (env : Env) (rand : Nat → Nat) (name : String)
    (level : Int)
    (h : Event.png_set_compression_level level ∈ (write_file g env rand name).events) :
    level = g.png_compression_level_value := by
  unfold write_file at h
  by_cases h0 : env.malloc_ok = false
  · simp [h0] at h
  simp only [Bool.not_eq_false] at h0
  simp only [h0, Bool.true_eq_false, if_false, List.mem_cons, reduceCtorEq, false_or] at h
  unfold open_and_encode at h
  by_cases h1 : env.fopen_ok = false
  · simp [h1, errno_exit] at h
  by_cases h2 : env.create_write_struct_ok = false
  · simp [h1, h2] at h
  by_cases h3 : env.create_info_struct_ok = false
  · simp [h1, h2, h3] at h
  simp only [Bool.not_eq_false] at h1 h2 h3
  simp only [h1, h2, h3, Bool.true_eq_false, if_false, List.mem_cons, reduceCtorEq,
    false_or] at h
  exact level_protected_region g env name level h

theorem parse_options_error (opts : List Opt) :
    ∀ (g0 : Globals) (ev : List Event), parse_options opts g0 = Except.error ev →
      ev = [Event.usage_stdout, Event.exit EXIT_SUCCESS] ∨
      ev = [Event.usage_stderr, Event.exit EXIT_FAILURE] := by
  induction opts with
  | nil => intro g0 ev h; simp [parse_options] at h
  | cons o rest ih =>
    intro g0 ev h
    cases o with
    | help =>
      simp only [parse_options, Except.error.injEq] at h
      exact Or.inl h.symm
    | unrecognised =>
      simp only [parse_options, Except.error.injEq] at h
      exact Or.inr h.symm
    | flag => simp only [parse_options] at h; exact ih _ ev h
    | output_file optarg => simp only [parse_options] at h; exact ih _ ev h
    | png_compression_level v => simp only [parse_options] at h; exact ih _ ev h
    | size v => simp only [parse_options] at h; exact ih _ ev h
    | random v => simp only [parse_options] at h; exact ih _ ev h
    | increment v => simp only [parse_options] at h; exact ih _ ev h
    | debug_level v => simp only [parse_options] at h; exact ih _ ev h

theorem main_error (opts : List Opt) (env : Env) (rand : Nat → Nat) (ev : List Event)
    (hg : parse_options opts initial_globals = Except.error ev) :
    (main opts env rand).call = none ∧ (main opts env rand).events = ev := by
  unfold main
  rw [hg]
  simp

theorem main_ok (opts : List Opt) (env : Env) (rand : Nat → Nat) (g : Globals) (f : String)
    (hg : parse_options opts initial_globals = Except.ok g) (hf : g.output_file = some f) :
    (main opts env rand).call = some (g, write_file g env rand f) ∧
    (main opts env rand).events =
      if (write_file g env rand f).events.getLast? = some Event.return_from_write_file then
        (write_file g env rand f).events ++ [Event.exit EXIT_SUCCESS]
      else (write_file g env rand f).events := by
  unfold main
  rw [hg]
  simp [hf]

theorem main_no_output (opts : List Opt) (env : Env) (rand : Nat → Nat) (g : Globals)
    (hg : parse_options opts initial_globals = Except.ok g) (hf : g.output_file = none) :
    (main opts env rand).call = none ∧
    (main opts env rand).events =
      [Event.fprintf_stderr "The output file must be specified.\n",
        Event.exit EXIT_FAILURE] := by
  unfold main
  rw [hg]
  simp [hf]

theorem main_call_run (opts : List Opt) (env : Env) (rand : Nat → Nat) (g : Globals)
    (run : Run) (h : (main opts env rand).call = some (g, run)) :
    ∃ f, g.output_file = some f ∧ run = write_file g env rand f := by
  have hg := main_call opts env rand g run h
  cases hf : g.output_file with
  | none =>
    rw [(main_no_output opts env rand g hg hf).1] at h
    simp at h
  | some f =>
    rw [(main_ok opts env rand g f hg hf).1] at h
    simp only [Option.some.injEq, Prod.mk.injEq, true_and] at h
    exact ⟨f, rfl, h.symm⟩

theorem main_level (opts : List Opt) (env : Env) (rand : Nat → Nat) (level : Int)
    (h : Event.png_set_compression_level level ∈ (main opts env rand).events) :
    ∃ g, parse_options opts initial_globals = Except.ok g ∧
      level = g.png_compression_level_value := by
  cases hg : parse_options opts initial_globals with
  | error ev =>
    rw [(main_error opts env rand ev hg).2] at h
    rcases parse_options_error opts _ ev hg with he | he <;> rw [he] at h <;> simp at h
  | ok g =>
    refine ⟨g, rfl, ?_⟩
    cases hf : g.output_file with
    | none =>
      rw [(main_no_output opts env rand g hg hf).2] at h
      simp at h
    | some f =>
      rw [(main_ok opts env rand g f hg hf).2] at h
      split_ifs at h
      · simp only [List.mem_append, List.mem_singleton, reduceCtorEq, or_false] at h
        exact level_write_file g env rand f level h
      · exact level_write_file g env rand f level h

/-! ### The loop when only the `int` arithmetic is known not to wrap -/

theorem wrap64_lt (z : Int) : wrap64 z < 9223372036854775808 := by
  unfold wrap64; omega

theorem wrap64_offset_mod (P k : Nat) (hP : P < 4611686014132420609) (hk : k < 3) :
    wrap64 (wrap64 (3 * (P : Int)) + k) % 18446744073709551616 = ((3 * P + k : Nat) : Int) := by
  unfold wrap64
  push_cast
  omega

theorem index_mod (g : Globals) (S I r c x y k : Nat)
    (hS : g.checkerboard_size = S) (hI : g.checkerboard_incr = I)
    (hW : S * I ≤ 2147483647)
    (hr : r < S) (hc : c < S) (hx : x < I) (hy : y < I) (hk : k < 3) :
    wrap64 (buffer_pointer g r c x y + k) % 18446744073709551616 =
      (offset_nat S I r c x y k : Int) := by
  have hG := mul_add_lt r x S I hr hx
  have hH := mul_add_lt c y S I hc hy
  have hP := mul_add_lt (r * I + x) (c * I + y) (S * I) (S * I) hG hH
  have hWW : (S * I) * (S * I) ≤ 2147483647 * 2147483647 := Nat.mul_le_mul hW hW
  have ex : x_ptr g r x = ((r * I + x : Nat) : Int) := by
    unfold x_ptr
    rw [hI, ← Nat.cast_mul, wrap32_cast _ (by omega), ← Nat.cast_add, wrap32_cast _ (by omega)]
  have ey : y_ptr g c y = ((c * I + y : Nat) : Int) := by
    unfold y_ptr
    rw [hI, ← Nat.cast_mul, wrap32_cast _ (by omega), ← Nat.cast_add, wrap32_cast _ (by omega)]
  have ew : int_width g = ((S * I : Nat) : Int) := by
    unfold int_width
    rw [hS, hI, ← Nat.cast_mul, wrap32_cast _ hW]
  unfold buffer_pointer offset_nat
  rw [ex, ey, ew, ← Nat.cast_mul, wrap64_cast _ (by omega), ← Nat.cast_add,
    wrap64_cast _ (by omega)]
  exact wrap64_offset_mod _ k (by omega) hk

theorem stores_index_inj_of_width (g : Globals) (rand : Nat → Nat) (S I : Nat)
    (hS : g.checkerboard_size = S) (hI : g.checkerboard_incr = I)
    (hW : S * I ≤ 2147483647) :
    ∀ e ∈ (synthesize g rand).stores, ∀ e' ∈ (synthesize g rand).stores,
      e.index = e'.index → e = e' := by
  have hSn : g.checkerboard_size.toNat = S := by rw [hS]; exact Int.toNat_ofNat S
  have hIn : g.checkerboard_incr.toNat = I := by rw [hI]; exact Int.toNat_ofNat I
  intro e he e' he' hidx
  rw [mem_stores, hSn, hIn] at he he'
  obtain ⟨r1, c1, x1, y1, k1, hr1, hc1, hx1, hy1, hk1, rfl⟩ := he
  obtain ⟨r2, c2, x2, y2, k2, hr2, hc2, hx2, hy2, hk2, rfl⟩ := he'
  have h1 := index_mod g S I r1 c1 x1 y1 k1 hS hI hW hr1 hc1 hx1 hy1 hk1
  have h2 := index_mod g S I r2 c2 x2 y2 k2 hS hI hW hr2 hc2 hx2 hy2 hk2
  have hidx' : wrap64 (buffer_pointer g r1 c1 x1 y1 + k1) =
      wrap64 (buffer_pointer g r2 c2 x2 y2 + k2) := hidx
  rw [hidx', h2] at h1
  have hnat : offset_nat S I r1 c1 x1 y1 k1 = offset_nat S I r2 c2 x2 y2 k2 := by
    exact_mod_cast h1.symm
  obtain ⟨e1, e2, e3, e4, e5⟩ :=
    offset_nat_inj S I r1 c1 x1 y1 k1 r2 c2 x2 y2 k2 hc1 hx1 hy1 hk1 hc2 hx2 hy2 hk2 hnat
  subst e1 e2 e3 e4 e5
  rfl

/-- The byte found after the loop at the index computed for channel `k` of pixel
`(x, y)` of cell `(r, c)` is the one stored for it, as soon as the width fits an
`int`. -/
theorem buffer_at_index (g : Globals) (rand : Nat → Nat) (init : Int → Nat)
    (S I r c x y k : Nat)
    (hS : g.checkerboard_size = S) (hI : g.checkerboard_incr = I)
    (hW : S * I ≤ 2147483647)
    (hr : r < S) (hc : c < S) (hx : x < I) (hy : y < I) (hk : k < 3) :
    output_buffer g rand init (wrap64 (buffer_pointer g r c x y + k)) =
      toUChar (channel_int g r c (rand (draw_no g r c x y k))) := by
  have hSn : g.checkerboard_size.toNat = S := by rw [hS]; exact Int.toNat_ofNat S
  have hIn : g.checkerboard_incr.toNat = I := by rw [hI]; exact Int.toNat_ofNat I
  have hmem : cell_store g rand r c x y k ∈ (synthesize g rand).stores := by
    rw [mem_stores, hSn, hIn]
    exact ⟨r, c, x, y, k, hr, hc, hx, hy, hk, rfl⟩
  have hinj := stores_index_inj_of_width g rand S I hS hI hW
  have hcons : ∀ e ∈ (synthesize g rand).stores, ∀ e' ∈ (synthesize g rand).stores,
      e.index = e'.index → e.value = e'.value :=
    fun e he e' he' h => by rw [hinj e he e' he' h]
  have h := replay_of_mem init _ hcons _ hmem
  exact h

/-! ### Bits of a stored byte outside the mask -/

set_option maxRecDepth 100000 in
theorem dark_bits (j : Nat) (hj : j < 9) (u : Nat) (hu : u ≤ 2 ^ (j + 1) - 1) :
    (u % 256) &&& (255 ^^^ ((2 ^ (j + 1) - 1) &&& 255)) = 0 ∧
    (j ≤ 6 → u % 256 / 128 = 0) := by
  revert u
  interval_cases j <;> decide

set_option maxRecDepth 100000 in
theorem light_bits (j : Nat) (hj : j < 9) (u : Nat) (hu : u ≤ 2 ^ (j + 1) - 1) :
    ((255 ^^^ u) % 256) &&& (255 ^^^ ((2 ^ (j + 1) - 1) &&& 255)) =
      255 ^^^ ((2 ^ (j + 1) - 1) &&& 255) ∧
    (j ≤ 6 → (255 ^^^ u) % 256 / 128 = 1) := by
  revert u
  interval_cases j <;> decide

theorem not8_cast (m : Nat) : not8 (m : Int) = ((255 ^^^ (m &&& 255) : Nat) : Int) := rfl

theorem config_nat_width (g : Globals) (hsize : 1 ≤ g.checkerboard_size)
    (hincr : 1 ≤ g.checkerboard_incr)
    (hW : g.checkerboard_size * g.checkerboard_incr ≤ 2147483647) :
    ∃ S I : Nat, g.checkerboard_size = S ∧ g.checkerboard_incr = I ∧ 1 ≤ S ∧ 1 ≤ I ∧
      S * I ≤ 2147483647 := by
  obtain ⟨S, hS⟩ := Int.eq_ofNat_of_zero_le (le_trans (by decide) hsize)
  obtain ⟨I, hI⟩ := Int.eq_ofNat_of_zero_le (le_trans (by decide) hincr)
  refine ⟨S, I, hS, hI, ?_, ?_, ?_⟩
  · rw [hS] at hsize; exact_mod_cast hsize
  · rw [hI] at hincr; exact_mod_cast hincr
  · rw [hS, hI] at hW; exact_mod_cast hW

/-- Bits outside the mask, and top bit, of the byte found at the index computed for
channel `k` of pixel `(x, y)` of cell `(r, c)`. -/
theorem byte_bits (g : Globals) (rand : Nat → Nat) (init : Int → Nat)
    (S I r c x y k j m : Nat)
    (hS : g.checkerboard_size = S) (hI : g.checkerboard_incr = I)
    (hW : S * I ≤ 2147483647)
    (hr : r < S) (hc : c < S) (hx : x < I) (hy : y < I) (hk : k < 3)
    (hj : j < 9) (hm : g.random_mask = (m : Int)) (hle : m ≤ 2 ^ (j + 1) - 1) :
    ((r ^^^ c) &&& 1 = 0 →
      output_buffer g rand init (wrap64 (buffer_pointer g r c x y + k)) &&&
          (255 ^^^ ((2 ^ (j + 1) - 1) &&& 255)) = 0 ∧
      (j ≤ 6 → output_buffer g rand init (wrap64 (buffer_pointer g r c x y + k)) / 128 = 0)) ∧
    ((r ^^^ c) &&& 1 = 1 →
      output_buffer g rand init (wrap64 (buffer_pointer g r c x y + k)) &&&
          (255 ^^^ ((2 ^ (j + 1) - 1) &&& 255)) = 255 ^^^ ((2 ^ (j + 1) - 1) &&& 255) ∧
      (j ≤ 6 → output_buffer g rand init (wrap64 (buffer_pointer g r c x y + k)) / 128 = 1)) := by
  rw [buffer_at_index g rand init S I r c x y k hS hI hW hr hc hx hy hk]
  unfold channel_int
  rw [color_cast, hm]
  have e255 : (255 : Int) = ((255 : Nat) : Int) := rfl
  constructor
  · intro h0
    rw [h0]
    simp only [Nat.cast_zero, if_true]
    rw [land_cast, toUChar_cast]
    exact dark_bits j hj _ (le_trans Nat.and_le_right hle)
  · intro h1
    rw [h1]
    simp only [Nat.cast_one, one_ne_zero, if_false]
    rw [land_cast, e255, xor_cast, toUChar_cast]
    exact light_bits j hj _ (le_trans Nat.and_le_right hle)

/-! ### Degenerate sizes -/

theorem synthesize_degenerate (g : Globals) (rand : Nat → Nat)
    (h : g.checkerboard_size.toNat = 0 ∨ g.checkerboard_incr.toNat = 0) :
    synthesize g rand = { calls := 0, stores := [] } := by
  rw [synthesize_eq]
  rcases h with h | h <;> simp [h]

theorem png_error_checks (g : Globals) (env : Env) (rand : Nat → Nat) (name text : String)
    (h : Event.png_error text ∈ (write_file g env rand name).events) :
    too_tall g = true ∨ too_wide g = true := by
  unfold write_file at h
  by_cases h0 : env.malloc_ok = false
  · simp [h0] at h
  simp only [Bool.not_eq_false] at h0
  simp only [h0, Bool.true_eq_false, if_false, List.mem_cons, reduceCtorEq, false_or] at h
  obtain ⟨-, h2⟩ := png_error_open_and_encode g env name text h
  have hrec := png_error_not_mem_recovery text
  have hrows := png_error_not_mem_write_rows g env name text
  by_cases h4 : too_tall g = true
  · exact Or.inl h4
  by_cases h5 : too_wide g = true
  · exact Or.inr h5
  exfalso
  unfold protected_region at h2
  simp only [h4, h5, Bool.false_eq_true, if_false] at h2
  revert h2
  split_ifs <;> simp [hrec, hrows]

/-! ### Storing in a byte -/

theorem and_511 (v : Nat) : v &&& 511 = v % 512 := Nat.and_pow_two_sub_one_eq_mod v 9

theorem and_255 (v : Nat) : v &&& 255 = v % 256 := Nat.and_pow_two_sub_one_eq_mod v 8

theorem low_bits_dark (v : Nat) :
    toUChar (Int.land (v : Int) 511) = v % 256 ∧ toUChar (Int.land (v : Int) 255) = v % 256 := by
  have e511 : (511 : Int) = ((511 : Nat) : Int) := rfl
  have e255 : (255 : Int) = ((255 : Nat) : Int) := rfl
  rw [e511, e255, land_cast, land_cast, toUChar_cast, toUChar_cast, and_511, and_255]
  omega

set_option maxRecDepth 100000 in
theorem xor_255_low : ∀ w : Nat, w < 512 → (255 ^^^ w) % 256 = 255 - w % 256 := by decide

theorem low_bits_light (v : Nat) :
    toUChar (Int.xor 255 (Int.land (v : Int) 511)) = 255 - v % 256 ∧
    toUChar (Int.xor 255 (Int.land (v : Int) 255)) = 255 - v % 256 := by
  have e511 : (511 : Int) = ((511 : Nat) : Int) := rfl
  have e255 : (255 : Int) = ((255 : Nat) : Int) := rfl
  have h1 := xor_255_low (v % 512) (Nat.mod_lt _ (by decide))
  have h2 := xor_255_low (v % 256) (by have := Nat.mod_lt v (show 0 < 256 by decide); omega)
  constructor
  · rw [e511, e255, land_cast, xor_cast, toUChar_cast, and_511, h1]
    omega
  · rw [e255, land_cast, xor_cast, toUChar_cast, and_255, h2]
    omega

theorem channel_int_truncated (g : Globals) (row column : Int) (v : Nat) :
    toUChar (channel_int { g with random_bits := 8, random_mask := 511 } row column v) =
      toUChar (channel_int { g with random_bits := 7, random_mask := 255 } row column v) := by
  unfold channel_int
  split
  · show toUChar (Int.land (v : Int) 511) = toUChar (Int.land (v : Int) 255)
    rw [(low_bits_dark v).1, (low_bits_dark v).2]
  · show toUChar (Int.xor 255 (Int.land (v : Int) 511)) =
      toUChar (Int.xor 255 (Int.land (v : Int) 255))
    rw [(low_bits_light v).1, (low_bits_light v).2]

theorem cell_store_truncated (g : Globals) (rand : Nat → Nat) (r c x y k : Nat) :
    cell_store { g with random_bits := 8, random_mask := 511 } rand r c x y k =
      cell_store { g with random_bits := 7, random_mask := 255 } rand r c x y k := by
  unfold cell_store store_at
  rw [channel_int_truncated]
  rfl

theorem synthesize_truncated (g : Globals) (rand : Nat → Nat) :
    synthesize { g with random_bits := 8, random_mask := 511 } rand =
      synthesize { g with random_bits := 7, random_mask := 255 } rand := by
  rw [synthesize_eq, synthesize_eq]
  simp only [cell_store_truncated]

/-! ### The configuration that the option loop hands to `write_file` -/

theorem parse_options_values (opts : List Opt) :
    ∀ g0 g : Globals, parse_options opts g0 = Except.ok g →
      g.checkerboard_size =
        ((opts.filterMap size_value).getLast?).getD g0.checkerboard_size ∧
      g.checkerboard_incr =
        ((opts.filterMap increment_value).getLast?).getD g0.checkerboard_incr ∧
      g.random_bits = ((opts.filterMap random_value).getLast?).getD g0.random_bits := by
  induction opts with
  | nil =>
    intro g0 g h
    simp only [parse_options, Except.ok.injEq] at h
    subst h
    exact ⟨rfl, rfl, rfl⟩
  | cons o rest ih =>
    intro g0 g h
    cases o with
    | help => simp [parse_options] at h
    | unrecognised => simp [parse_options] at h
    | flag =>
      simp only [parse_options] at h
      simpa [size_value, increment_value, random_value] using ih _ g h
    | output_file optarg =>
      simp only [parse_options] at h
      simpa [size_value, increment_value, random_value] using ih _ g h
    | png_compression_level v =>
      simp only [parse_options] at h
      simpa [size_value, increment_value, random_value] using ih _ g h
    | debug_level v =>
      simp only [parse_options] at h
      simpa [size_value, increment_value, random_value] using ih _ g h
    | size v =>
      simp only [parse_options] at h
      obtain ⟨h1, h2, h3⟩ := ih _ g h
      refine ⟨?_, by simpa [increment_value] using h2, by simpa [random_value] using h3⟩
      simp only [List.filterMap_cons, size_value]
      rw [getLast?_getD_cons]
      exact h1
    | increment v =>
      simp only [parse_options] at h
      obtain ⟨h1, h2, h3⟩ := ih _ g h
      refine ⟨by simpa [size_value] using h1, ?_, by simpa [random_value] using h3⟩
      simp only [List.filterMap_cons, increment_value]
      rw [getLast?_getD_cons]
      exact h2
    | random v =>
      simp only [parse_options] at h
      obtain ⟨h1, h2, h3⟩ := ih _ g h
      refine ⟨by simpa [size_value] using h1, by simpa [increment_value] using h2, ?_⟩
      simp only [List.filterMap_cons, random_value]
      rw [getLast?_getD_cons]
      exact h3

theorem parse_options_ok (opts : List Opt) :
    ∀ g0 : Globals, (∀ o ∈ opts, ends_loop o = false) →
      ∃ g, parse_options opts g0 = Except.ok g := by
  induction opts with
  | nil => intro g0 _; exact ⟨g0, rfl⟩
  | cons o rest ih =>
    intro g0 h
    have hrest : ∀ o ∈ rest, ends_loop o = false :=
      fun o ho => h o (List.mem_cons_of_mem _ ho)
    have ho := h o (List.mem_cons_self _ _)
    cases o with
    | help => simp [ends_loop] at ho
    | unrecognised => simp [ends_loop] at ho
    | flag => simpa [parse_options] using ih g0 hrest
    | output_file optarg => simpa [parse_options] using ih _ hrest
    | png_compression_level v => simpa [parse_options] using ih _ hrest
    | size v => simpa [parse_options] using ih _ hrest
    | random v => simpa [parse_options] using ih _ hrest
    | increment v => simpa [parse_options] using ih _ hrest
    | debug_level v => simpa [parse_options] using ih _ hrest

theorem parse_options_output (opts : List Opt) :
    ∀ g0 g : Globals, parse_options opts g0 = Except.ok g →
      (g0.output_file.isSome = true ∨ ∃ o ∈ opts, is_output_file o = true) →
      g.output_file.isSome = true := by
  induction opts with
  | nil =>
    intro g0 g h hor
    simp only [parse_options, Except.ok.injEq] at h
    subst h
    rcases hor with h | ⟨o, ho, -⟩
    · exact h
    · simp at ho
  | cons o rest ih =>
    intro g0 g h hor
    have hor' : g0.output_file.isSome = true ∨ is_output_file o = true ∨
        ∃ o ∈ rest, is_output_file o = true := by
      rcases hor with h1 | ⟨a, ha, hao⟩
      · exact Or.inl h1
      · rcases List.mem_cons.1 ha with h2 | h2
        · subst h2; exact Or.inr (Or.inl hao)
        · exact Or.inr (Or.inr ⟨a, h2, hao⟩)
    cases o with
    | help => simp [parse_options] at h
    | unrecognised => simp [parse_options] at h
    | output_file optarg =>
      simp only [parse_options] at h
      exact ih _ g h (Or.inl rfl)
    | flag =>
      simp only [parse_options] at h
      simp only [is_output_file, Bool.false_eq_true, false_or] at hor'
      exact ih _ g h hor'
    | png_compression_level v =>
      simp only [parse_options] at h
      simp only [is_output_file, Bool.false_eq_true, false_or] at hor'
      exact ih _ g h hor'
    | size v =>
      simp only [parse_options] at h
      simp only [is_output_file, Bool.false_eq_true, false_or] at hor'
      exact ih _ g h hor'
    | random v =>
      simp only [parse_options] at h
      simp only [is_output_file, Bool.false_eq_true, false_or] at hor'
      exact ih _ g h hor'
    | increment v =>
      simp only [parse_options] at h
      simp only [is_output_file, Bool.false_eq_true, false_or] at hor'
      exact ih _ g h hor'
    | debug_level v =>
      simp only [parse_options] at h
      simp only [is_output_file, Bool.false_eq_true, false_or] at hor'
      exact ih _ g h hor'

theorem write_file_head (g : Globals) (env : Env) (rand : Nat → Nat) (name : String) :
    (write_file g env rand name).events.head? =
      some (Event.malloc (toSizeT (output_buffer_size g))) := by
  unfold write_file
  split <;> rfl

theorem noise_cast (j : Nat) :
    (2 : Int) ^ ((j : Int) + 1).toNat - 1 = ((2 ^ (j + 1) - 1 : Nat) : Int) := by
  have h1 : 1 ≤ 2 ^ (j + 1) := Nat.one_le_two_pow
  have h2 : ((j : Int) + 1).toNat = j + 1 := by omega
  rw [h2]
  push_cast [Nat.cast_sub h1]
  rfl

/-- The mask with which `write_file` runs is 0 or the noise mask of `random_bits`. -/
theorem configured_mask (opts : List Opt) (g : Globals)
    (hconf : parse_options opts initial_globals = Except.ok g)
    (hbits : 0 ≤ g.random_bits ∧ g.random_bits ≤ 8) :
    ∃ j m : Nat, j < 9 ∧ g.random_bits = j ∧ g.random_mask = m ∧ m ≤ 2 ^ (j + 1) - 1 := by
  obtain ⟨h1, h2⟩ := parse_options_mask opts initial_globals g hconf
  obtain ⟨j, hj⟩ := Int.eq_ofNat_of_zero_le hbits.1
  have hj9 : j < 9 := by have := hbits.2; rw [hj] at this; omega
  cases hr : random_given opts with
  | true =>
    refine ⟨j, 2 ^ (j + 1) - 1, hj9, hj, ?_, le_refl _⟩
    rw [h1 hr, mask_of_bits_eq g.random_bits hbits.1 hbits.2, hj]
    exact noise_cast j
  | false =>
    refine ⟨j, 0, hj9, hj, ?_, Nat.zero_le _⟩
    rw [(h2 hr).2]
    rfl

/-- The calls of a run of `write_file` in which the checks of lines 139-142 pass and
every call up to `png_malloc` succeeds. -/
theorem write_file_events_ok (g : Globals) (env : Env) (rand : Nat → Nat) (name : String)
    (htall : too_tall g = false) (hwide : too_wide g = false)
    (hmalloc : env.malloc_ok = true) (hfopen : env.fopen_ok = true)
    (hwrite : env.create_write_struct_ok = true) (hinfo : env.create_info_struct_ok = true)
    (hio : env.png_raises PngCall.init_io = false)
    (hihdr : env.png_raises PngCall.set_IHDR = false)
    (hlevel : env.png_raises PngCall.set_compression_level = false)
    (hpmalloc : env.png_raises PngCall.malloc = false)
    (hnull : env.png_malloc_null = false) :
    (write_file g env rand name).events =
      Event.malloc (toSizeT (output_buffer_size g)) ::
        Event.fopen name "wb" :: Event.png_create_write_struct ::
        Event.png_create_info_struct :: Event.png_init_io ::
        Event.png_set_IHDR (toUInt32 (int_width g)) (toUInt32 (int_width g)) 8
          ColorType.RGB Interlace.NONE ::
        Event.png_set_compression_level g.png_compression_level_value ::
        Event.png_malloc (row_pointers_size g) :: write_rows g env name := by
  unfold write_file open_and_encode protected_region
  simp [hmalloc, hfopen, hwrite, hinfo, hio, hihdr, hlevel, hpmalloc, hnull, htall, hwide]

/-- The first call of a run of `main` that calls `write_file` is the `malloc` of the
pixel buffer. -/
theorem main_head (opts : List Opt) (env : Env) (rand : Nat → Nat) (g : Globals) (f : String)
    (hg : parse_options opts initial_globals = Except.ok g) (hf : g.output_file = some f) :
    (main opts env rand).events.head? =
      some (Event.malloc (toSizeT (output_buffer_size g))) := by
  have h := write_file_head g env rand f
  rw [(main_ok opts env rand g f hg hf).2]
  split
  · cases hl : (write_file g env rand f).events with
    | nil => rw [hl] at h; simp at h
    | cons a l => rw [hl] at h; simpa using h
  · exact h

/-! ### The store log, store by store -/

theorem length_flatMap_range {α : Type} (n len : Nat) (f : Nat → List α)
    (h : ∀ i, (f i).length = len) : ((List.range n).flatMap f).length = n * len := by
  induction n with
  | zero => simp
  | succ n ih =>
    rw [List.range_succ, List.flatMap_append, List.length_append, ih]
    simp [h, Nat.succ_mul]

theorem stores_length (g : Globals) (rand : Nat → Nat) :
    (synthesize g rand).stores.length =
      3 * (g.checkerboard_size.toNat * g.checkerboard_incr.toNat) ^ 2 := by
  rw [synthesize_eq]
  rw [length_flatMap_range _ (g.checkerboard_size.toNat *
    (g.checkerboard_incr.toNat * (g.checkerboard_incr.toNat * 3)))]
  · ring
  intro r
  rw [length_flatMap_range _ (g.checkerboard_incr.toNat * (g.checkerboard_incr.toNat * 3))]
  intro c
  rw [length_flatMap_range _ (g.checkerboard_incr.toNat * 3)]
  intro x
  rw [length_flatMap_range _ 3]
  intro y
  rfl

theorem draw_no_eq (g : Globals) (r c x y k : Nat) :
    draw_no g r c x y k =
      3 * (((r * g.checkerboard_size.toNat + c) * g.checkerboard_incr.toNat + x) *
        g.checkerboard_incr.toNat + y) + k := by
  unfold draw_no
  ring

/-- The store made for a channel, with its draw and its value written out. -/
theorem cell_store_eq (g : Globals) (rand : Nat → Nat) (r c x y k : Nat) :
    cell_store g rand r c x y k =
      { row := r, column := c, x_pixel := x, y_pixel := y, channel := k,
        index := wrap64 (buffer_pointer g r c x y + k),
        value :=
          if (r ^^^ c) &&& 1 = 0 then
            toUChar (Int.land
              (rand (3 * (((r * g.checkerboard_size.toNat + c) * g.checkerboard_incr.toNat + x) *
                g.checkerboard_incr.toNat + y) + k) : Int) g.random_mask)
          else
            toUChar (Int.xor 255 (Int.land
              (rand (3 * (((r * g.checkerboard_size.toNat + c) * g.checkerboard_incr.toNat + x) *
                g.checkerboard_incr.toNat + y) + k) : Int) g.random_mask)) } := by
  unfold cell_store store_at channel_int
  rw [draw_no_eq, color_cast]
  have hp : (r ^^^ c) &&& 1 = 0 ∨ (r ^^^ c) &&& 1 = 1 := by
    rw [Nat.and_one_is_mod]; omega
  rcases hp with h | h <;> simp [h]

theorem light_value (g : Globals) (r c : Nat) (v : Nat)
    (hmask : g.random_mask = 511 ∨ g.random_mask = 255) (h1 : (r ^^^ c) &&& 1 = 1) :
    toUChar (channel_int g r c v) = 255 - v % 256 := by
  unfold channel_int
  rw [color_cast, h1]
  simp only [Nat.cast_one, one_ne_zero, if_false]
  rcases hmask with h | h
  · rw [h]; exact (low_bits_light v).1
  · rw [h]; exact (low_bits_light v).2

/-- The store made for a channel of a light cell under the masks 511 and 255. -/
theorem light_store (g : Globals) (rand : Nat → Nat) (r c x y k : Nat)
    (hmask : g.random_mask = 511 ∨ g.random_mask = 255) (h1 : (r ^^^ c) &&& 1 = 1) :
    cell_store g rand r c x y k =
      { row := r, column := c, x_pixel := x, y_pixel := y, channel := k,
        index := wrap64 (buffer_pointer g r c x y + k),
        value := 255 - rand (3 * (((r * g.checkerboard_size.toNat + c) *
          g.checkerboard_incr.toNat + x) * g.checkerboard_incr.toNat + y) + k) % 256 } := by
  unfold cell_store store_at
  rw [light_value g r c _ hmask h1, draw_no_eq]

/-- The byte of a channel of a light cell under the masks 511 and 255. -/
theorem light_byte (g : Globals) (rand : Nat → Nat) (init : Int → Nat) (r c x y k : Nat)
    (hr : r < g.checkerboard_size.toNat) (hc : c < g.checkerboard_size.toNat)
    (hx : x < g.checkerboard_incr.toNat) (hy : y < g.checkerboard_incr.toNat) (hk : k < 3)
    (hW : g.checkerboard_size * g.checkerboard_incr ≤ 2147483647)
    (hmask : g.random_mask = 511 ∨ g.random_mask = 255) (h1 : (r ^^^ c) &&& 1 = 1) :
    output_buffer g rand init (wrap64 (buffer_pointer g r c x y + k)) =
      255 - rand (3 * (((r * g.checkerboard_size.toNat + c) *
        g.checkerboard_incr.toNat + x) * g.checkerboard_incr.toNat + y) + k) % 256 := by
  have hS : g.checkerboard_size = (g.checkerboard_size.toNat : Int) := by omega
  have hI : g.checkerboard_incr = (g.checkerboard_incr.toNat : Int) := by omega
  have hWn : g.checkerboard_size.toNat * g.checkerboard_incr.toNat ≤ 2147483647 := by
    rw [hS, hI] at hW
    exact_mod_cast hW
  rw [buffer_at_index g rand init _ _ r c x y k hS hI hWn hr hc hx hy hk,
    light_value g r c _ hmask h1, draw_no_eq]

/-- The index of lines 78-83 is the offset of the channel, wrapped to a `long long`. -/
theorem index_wrap (g : Globals) (S I r c x y k : Nat)
    (hS : g.checkerboard_size = S) (hI : g.checkerboard_incr = I)
    (hW : S * I ≤ 2147483647)
    (hr : r < S) (hc : c < S) (hx : x < I) (hy : y < I) (hk : k < 3) :
    wrap64 (buffer_pointer g r c x y + k) = wrap64 (offset_nat S I r c x y k : Int) := by
  have h := index_mod g S I r c x y k hS hI hW hr hc hx hy hk
  generalize (offset_nat S I r c x y k : Int) = o at h ⊢
  generalize buffer_pointer g r c x y + k = z at h ⊢
  unfold wrap64 at h ⊢
  omega

/-! ## The properties of the specification -/

/-- C1 (parity invariant of the synthesis loop).  For `board_size ≥ 1`,
`cell_scale ≥ 1`, `random_bits` in `[0, 8]`, `random_mask = 2^(random_bits+1) - 1`,
`total_width ≤ 2^31 - 1` and `3 * total_width^2 < 2^63`, and for every stream of
draws, after the loop each channel byte `k` of each pixel `(x, y)` of each cell
`(r, c)` lies in `[0, random_mask]` when `(r XOR c) AND 1 = 0` and in
`[255 - random_mask, 255]` when `(r XOR c) AND 1 = 1`. -/
theorem C1_parity_invariant (g : Globals) (rand : Nat → Nat) (init : Int → Nat)
    (hsize : 1 ≤ g.checkerboard_size) (hincr : 1 ≤ g.checkerboard_incr)
    (hbits : 0 ≤ g.random_bits ∧ g.random_bits ≤ 8)
    (hmask : g.random_mask = 2 ^ (g.random_bits + 1).toNat - 1)
    (hW : g.checkerboard_size * g.checkerboard_incr ≤ 2147483647)
    (h63 : 3 * (g.checkerboard_size * g.checkerboard_incr) ^ 2 < 2 ^ 63)
    (r c x y k : Nat) (hr : (r : Int) < g.checkerboard_size)
    (hc : (c : Int) < g.checkerboard_size) (hx : (x : Int) < g.checkerboard_incr)
    (hy : (y : Int) < g.checkerboard_incr) (hk : k < 3) :
    ((r ^^^ c) &&& 1 = 0 →
      (0 : Int) ≤ output_buffer g rand init
        (3 * (((r : Int) * g.checkerboard_incr + x) *
          (g.checkerboard_size * g.checkerboard_incr) +
            ((c : Int) * g.checkerboard_incr + y)) + k) ∧
      (output_buffer g rand init
        (3 * (((r : Int) * g.checkerboard_incr + x) *
          (g.checkerboard_size * g.checkerboard_incr) +
            ((c : Int) * g.checkerboard_incr + y)) + k) : Int) ≤ g.random_mask) ∧
    ((r ^^^ c) &&& 1 = 1 →
      255 - g.random_mask ≤ (output_buffer g rand init
        (3 * (((r : Int) * g.checkerboard_incr + x) *
          (g.checkerboard_size * g.checkerboard_incr) +
            ((c : Int) * g.checkerboard_incr + y)) + k) : Int) ∧
      (output_buffer g rand init
        (3 * (((r : Int) * g.checkerboard_incr + x) *
          (g.checkerboard_size * g.checkerboard_incr) +
            ((c : Int) * g.checkerboard_incr + y)) + k) : Int) ≤ 255) := by
  have _ := hbits
  obtain ⟨S, I, hS, hI, -, -, hWn, h63n⟩ := config_nat g hsize hincr hW h63
  have hr' : r < S := by rw [hS] at hr; exact_mod_cast hr
  have hc' : c < S := by rw [hS] at hc; exact_mod_cast hc
  have hx' : x < I := by rw [hI] at hx; exact_mod_cast hx
  have hy' : y < I := by rw [hI] at hy; exact_mod_cast hy
  obtain ⟨m, hm⟩ := mask_nat g hmask
  rw [offset_nat_cast g S I r c x y k hS hI]
  obtain ⟨hd, hl⟩ :=
    buffer_parity g rand init S I r c x y k m hS hI hWn h63n hr' hc' hx' hy' hk hm
  rw [hm]
  refine ⟨fun h0 => ⟨Int.ofNat_nonneg _, hd h0⟩, fun h1 => ⟨(hl h1).1, ?_⟩⟩
  exact_mod_cast (hl h1).2

/-- Witness of C1: the 2 x 2 board with `random_bits = 0` has a 12-byte buffer and
the first channel of the light cell `(0, 1)` holds 254 or 255. -/
theorem C1_parity_invariant_witness :
    output_buffer_size board_2x2 = 12 ∧
    (((0 ^^^ 1) &&& 1 = 0 →
      (0 : Int) ≤ output_buffer board_2x2 sample_rand sample_init
        (3 * ((((0 : Nat) : Int) * board_2x2.checkerboard_incr + ((0 : Nat) : Int)) *
          (board_2x2.checkerboard_size * board_2x2.checkerboard_incr) +
            (((1 : Nat) : Int) * board_2x2.checkerboard_incr + ((0 : Nat) : Int))) +
              ((0 : Nat) : Int)) ∧
      (output_buffer board_2x2 sample_rand sample_init
        (3 * ((((0 : Nat) : Int) * board_2x2.checkerboard_incr + ((0 : Nat) : Int)) *
          (board_2x2.checkerboard_size * board_2x2.checkerboard_incr) +
            (((1 : Nat) : Int) * board_2x2.checkerboard_incr + ((0 : Nat) : Int))) +
              ((0 : Nat) : Int)) : Int) ≤ board_2x2.random_mask) ∧
    ((0 ^^^ 1) &&& 1 = 1 →
      255 - board_2x2.random_mask ≤ (output_buffer board_2x2 sample_rand sample_init
        (3 * ((((0 : Nat) : Int) * board_2x2.checkerboard_incr + ((0 : Nat) : Int)) *
          (board_2x2.checkerboard_size * board_2x2.checkerboard_incr) +
            (((1 : Nat) : Int) * board_2x2.checkerboard_incr + ((0 : Nat) : Int))) +
              ((0 : Nat) : Int)) : Int) ∧
      (output_buffer board_2x2 sample_rand sample_init
        (3 * ((((0 : Nat) : Int) * board_2x2.checkerboard_incr + ((0 : Nat) : Int)) *
          (board_2x2.checkerboard_size * board_2x2.checkerboard_incr) +
            (((1 : Nat) : Int) * board_2x2.checkerboard_incr + ((0 : Nat) : Int))) +
              ((0 : Nat) : Int)) : Int) ≤ 255)) :=
  ⟨by decide,
    C1_parity_invariant board_2x2 sample_rand sample_init (by decide) (by decide)
      (by decide) (by decide) (by decide) (by decide) 0 1 0 0 0 (by decide) (by decide)
      (by decide) (by decide) (by decide)⟩

/-- C2 (pixel addressing).  For `board_size ≥ 1`, `cell_scale ≥ 1`,
`total_width ≤ 2^31 - 1` and `3 * total_width^2 < 2^63`, and for every cell
`(row, column)`, pixel `(x_pixel, y_pixel)` of it and channel `k`, the loop makes a
store for that channel, and every store it makes for that channel goes to offset
`3 * ((row * cell_scale + x_pixel) * total_width + (column * cell_scale + y_pixel)) + k`:
`row` and `x_pixel` select the scanline, `column` and `y_pixel` the position in it. -/
theorem C2_pixel_addressing (g : Globals) (rand : Nat → Nat)
    (hsize : 1 ≤ g.checkerboard_size) (hincr : 1 ≤ g.checkerboard_incr)
    (hW : g.checkerboard_size * g.checkerboard_incr ≤ 2147483647)
    (h63 : 3 * (g.checkerboard_size * g.checkerboard_incr) ^ 2 < 2 ^ 63)
    (row column x_pixel y_pixel k : Int)
    (hr : 0 ≤ row ∧ row < g.checkerboard_size)
    (hc : 0 ≤ column ∧ column < g.checkerboard_size)
    (hx : 0 ≤ x_pixel ∧ x_pixel < g.checkerboard_incr)
    (hy : 0 ≤ y_pixel ∧ y_pixel < g.checkerboard_incr) (hk : 0 ≤ k ∧ k < 3) :
    (∃ e ∈ (synthesize g rand).stores, e.row = row ∧ e.column = column ∧
        e.x_pixel = x_pixel ∧ e.y_pixel = y_pixel ∧ e.channel = k) ∧
    (∀ e ∈ (synthesize g rand).stores, e.row = row → e.column = column →
        e.x_pixel = x_pixel → e.y_pixel = y_pixel → e.channel = k →
        e.index = 3 * ((row * g.checkerboard_incr + x_pixel) *
          (g.checkerboard_size * g.checkerboard_incr) +
            (column * g.checkerboard_incr + y_pixel)) + k) := by
  obtain ⟨S, I, hS, hI, -, -, hWn, h63n⟩ := config_nat g hsize hincr hW h63
  have hSn : g.checkerboard_size.toNat = S := by rw [hS]; exact Int.toNat_ofNat S
  have hIn : g.checkerboard_incr.toNat = I := by rw [hI]; exact Int.toNat_ofNat I
  obtain ⟨r, rfl⟩ := Int.eq_ofNat_of_zero_le hr.1
  obtain ⟨c, rfl⟩ := Int.eq_ofNat_of_zero_le hc.1
  obtain ⟨x, rfl⟩ := Int.eq_ofNat_of_zero_le hx.1
  obtain ⟨y, rfl⟩ := Int.eq_ofNat_of_zero_le hy.1
  obtain ⟨k, rfl⟩ := Int.eq_ofNat_of_zero_le hk.1
  have hr' : r < S := by have := hr.2; rw [hS] at this; exact_mod_cast this
  have hc' : c < S := by have := hc.2; rw [hS] at this; exact_mod_cast this
  have hx' : x < I := by have := hx.2; rw [hI] at this; exact_mod_cast this
  have hy' : y < I := by have := hy.2; rw [hI] at this; exact_mod_cast this
  have hk' : k < 3 := by exact_mod_cast hk.2
  constructor
  · refine ⟨cell_store g rand r c x y k, ?_, rfl, rfl, rfl, rfl, rfl⟩
    rw [mem_stores, hSn, hIn]
    exact ⟨r, c, x, y, k, hr', hc', hx', hy', hk', rfl⟩
  · intro e he h1 h2 h3 h4 h5
    rw [mem_stores, hSn, hIn] at he
    obtain ⟨r2, c2, x2, y2, k2, hr2, hc2, hx2, hy2, hk2, rfl⟩ := he
    simp only [cell_store, store_at, Nat.cast_inj] at h1 h2 h3 h4 h5
    subst h1 h2 h3 h4 h5
    rw [cell_store_index g rand S I r2 c2 x2 y2 k2 hS hI hWn h63n hr2 hc2 hx2 hy2 hk2,
      offset_nat_cast g S I r2 c2 x2 y2 k2 hS hI]

/-- Witness of C2: in the 2 x 2 board of 2 x 2 cells, channel 2 of pixel `(1, 0)` of
cell `(0, 1)` is stored at offset `3 * (1 * 4 + 2) + 2 = 20`. -/
theorem C2_pixel_addressing_witness :
    (∃ e ∈ (synthesize board_2x2_scaled sample_rand).stores, e.row = 0 ∧ e.column = 1 ∧
        e.x_pixel = 1 ∧ e.y_pixel = 0 ∧ e.channel = 2) ∧
    (∀ e ∈ (synthesize board_2x2_scaled sample_rand).stores, e.row = 0 → e.column = 1 →
        e.x_pixel = 1 → e.y_pixel = 0 → e.channel = 2 →
        e.index = 3 * ((0 * board_2x2_scaled.checkerboard_incr + 1) *
          (board_2x2_scaled.checkerboard_size * board_2x2_scaled.checkerboard_incr) +
            (1 * board_2x2_scaled.checkerboard_incr + 0)) + 2) :=
  C2_pixel_addressing board_2x2_scaled sample_rand (by decide) (by decide) (by decide)
    (by decide) 0 1 1 0 2 (by decide) (by decide) (by decide) (by decide) (by decide)

/-- C3 as amended (buffer length).  For `board_size ≥ 1`, `cell_scale ≥ 1` and
`3 * (board_size * cell_scale)^2 < 2^63`, the byte count that `write_file` computes
in `long` arithmetic, and passes to `malloc` as its first call, is the integer
`3 * (board_size * cell_scale)^2`. -/
theorem C3_buffer_length (g : Globals) (env : Env) (rand : Nat → Nat)
    (output_file_name : String)
    (hsize : 1 ≤ g.checkerboard_size) (hincr : 1 ≤ g.checkerboard_incr)
    (h63 : 3 * (g.checkerboard_size * g.checkerboard_incr) ^ 2 < 2 ^ 63) :
    output_buffer_size g = 3 * (g.checkerboard_size * g.checkerboard_incr) ^ 2 ∧
    (write_file g env rand output_file_name).events.head? =
      some (Event.malloc (3 * (g.checkerboard_size * g.checkerboard_incr) ^ 2)) := by
  have h := output_buffer_size_eq g hsize hincr h63
  have hpos : 0 ≤ (g.checkerboard_size * g.checkerboard_incr) ^ 2 := sq_nonneg _
  have hs : toSizeT (output_buffer_size g) =
      3 * (g.checkerboard_size * g.checkerboard_incr) ^ 2 := by
    rw [h]; unfold toSizeT; omega
  refine ⟨h, ?_⟩
  unfold write_file
  split <;> simp [hs]

/-- Witness of C3 as amended: the 2 x 2 board of 2 x 2 cells. -/
theorem C3_buffer_length_witness :
    output_buffer_size board_2x2_scaled =
      3 * (board_2x2_scaled.checkerboard_size * board_2x2_scaled.checkerboard_incr) ^ 2 ∧
    (write_file board_2x2_scaled env_ok sample_rand "out.png").events.head? =
      some (Event.malloc (3 * (board_2x2_scaled.checkerboard_size *
        board_2x2_scaled.checkerboard_incr) ^ 2)) :=
  C3_buffer_length board_2x2_scaled env_ok sample_rand "out.png" (by decide) (by decide)
    (by decide)

/-- Counterexample to C3 as stated: `board_size = 2^31 - 1` and `cell_scale = 1` are
positive `int` values, but `pixel_count * 3` wraps in `long` arithmetic. -/
theorem C3_buffer_length_counterexample :
    (1 ≤ board_int_max.checkerboard_size ∧ board_int_max.checkerboard_size ≤ 2147483647 ∧
      1 ≤ board_int_max.checkerboard_incr ∧ board_int_max.checkerboard_incr ≤ 2147483647) ∧
    output_buffer_size board_int_max = -4611686031312289789 ∧
    3 * (board_int_max.checkerboard_size * board_int_max.checkerboard_incr) ^ 2
      = 13835058042397261827 ∧
    output_buffer_size board_int_max ≠
      3 * (board_int_max.checkerboard_size * board_int_max.checkerboard_incr) ^ 2 := by
  decide

/-- C4 (every byte written exactly once).  For `board_size ≥ 1`, `cell_scale ≥ 1`,
`total_width ≤ 2^31 - 1` and `3 * total_width^2 < 2^63`, the offsets of the stores
made by the loop, one per iteration and channel, are pairwise distinct, and an
offset is among them exactly when it lies in `[0, 3 * total_width^2)`, which is
the size requested for the buffer. -/
theorem C4_written_exactly_once (g : Globals) (rand : Nat → Nat)
    (hsize : 1 ≤ g.checkerboard_size) (hincr : 1 ≤ g.checkerboard_incr)
    (hW : g.checkerboard_size * g.checkerboard_incr ≤ 2147483647)
    (h63 : 3 * (g.checkerboard_size * g.checkerboard_incr) ^ 2 < 2 ^ 63) :
    ((synthesize g rand).stores.map Store.index).Nodup ∧
    (∀ a : Int, a ∈ (synthesize g rand).stores.map Store.index ↔
      0 ≤ a ∧ a < 3 * (g.checkerboard_size * g.checkerboard_incr) ^ 2) ∧
    output_buffer_size g = 3 * (g.checkerboard_size * g.checkerboard_incr) ^ 2 := by
  obtain ⟨S, I, hS, hI, -, -, hWn, h63n⟩ := config_nat g hsize hincr hW h63
  have hSn : g.checkerboard_size.toNat = S := by rw [hS]; exact Int.toNat_ofNat S
  have hIn : g.checkerboard_incr.toNat = I := by rw [hI]; exact Int.toNat_ofNat I
  have hsz : (3 : Int) * (g.checkerboard_size * g.checkerboard_incr) ^ 2 =
      ((3 * ((S * I) * (S * I)) : Nat) : Int) := by
    rw [hS, hI]; push_cast; ring
  refine ⟨?_, ?_, output_buffer_size_eq g hsize hincr h63⟩
  · exact List.Nodup.map_on (stores_index_inj g rand S I hS hI hWn h63n) (stores_nodup g rand)
  · intro a
    rw [hsz, List.mem_map]
    constructor
    · rintro ⟨e, he, rfl⟩
      rw [mem_stores, hSn, hIn] at he
      obtain ⟨r, c, x, y, k, hr, hc, hx, hy, hk, rfl⟩ := he
      rw [cell_store_index g rand S I r c x y k hS hI hWn h63n hr hc hx hy hk]
      have := offset_nat_lt S I r c x y k hr hc hx hy hk
      exact ⟨Int.ofNat_nonneg _, by exact_mod_cast this⟩
    · rintro ⟨h0, h1⟩
      obtain ⟨n, rfl⟩ := Int.eq_ofNat_of_zero_le h0
      have hn : n < 3 * ((S * I) * (S * I)) := by exact_mod_cast h1
      obtain ⟨r, c, x, y, k, hr, hc, hx, hy, hk, hoff⟩ := offset_nat_surj S I n hn
      refine ⟨cell_store g rand r c x y k, ?_, ?_⟩
      · rw [mem_stores, hSn, hIn]
        exact ⟨r, c, x, y, k, hr, hc, hx, hy, hk, rfl⟩
      · rw [cell_store_index g rand S I r c x y k hS hI hWn h63n hr hc hx hy hk, hoff]

/-- Witness of C4: the 2 x 2 board of 2 x 2 cells, whose buffer has 48 bytes. -/
theorem C4_written_exactly_once_witness :
    ((synthesize board_2x2_scaled sample_rand).stores.map Store.index).Nodup ∧
    (∀ a : Int, a ∈ (synthesize board_2x2_scaled sample_rand).stores.map Store.index ↔
      0 ≤ a ∧ a < 3 * (board_2x2_scaled.checkerboard_size *
        board_2x2_scaled.checkerboard_incr) ^ 2) ∧
    output_buffer_size board_2x2_scaled =
      3 * (board_2x2_scaled.checkerboard_size * board_2x2_scaled.checkerboard_incr) ^ 2 :=
  C4_written_exactly_once board_2x2_scaled sample_rand (by decide) (by decide) (by decide)
    (by decide)

/-- C5 as amended (noise mask).  Whenever `main` calls `write_file`, with
`random_bits` in `[0, 8]`: if the random-bits option was given, `random_mask` is
`2^(random_bits+1) - 1`; if it was not given, `random_bits` and `random_mask`
keep their initial value 0. -/
theorem C5_noise_mask (opts : List Opt) (env : Env) (rand : Nat → Nat) (g : Globals)
    (run : Run) (hcall : (main opts env rand).call = some (g, run))
    (hbits : 0 ≤ g.random_bits ∧ g.random_bits ≤ 8) :
    (random_given opts = true → g.random_mask = 2 ^ (g.random_bits + 1).toNat - 1) ∧
    (random_given opts = false → g.random_bits = 0 ∧ g.random_mask = 0) := by
  obtain ⟨h1, h2⟩ := parse_options_mask opts initial_globals g (main_call opts env rand g run hcall)
  refine ⟨fun h => ?_, fun h => h2 h⟩
  rw [h1 h, mask_of_bits_eq g.random_bits hbits.1 hbits.2]

/-- Witness of C5 as amended: the options `-o out.png -r 3`, for which the mask is 15. -/
theorem C5_noise_mask_witness :
    (random_given [Opt.output_file "out.png", Opt.random 3] = true →
      ({ initial_globals with
          output_file := some "out.png", random_bits := 3, random_mask := 15 } :
        Globals).random_mask =
        2 ^ (({ initial_globals with
          output_file := some "out.png", random_bits := 3, random_mask := 15 } :
            Globals).random_bits + 1).toNat - 1) ∧
    (random_given [Opt.output_file "out.png", Opt.random 3] = false →
      ({ initial_globals with
          output_file := some "out.png", random_bits := 3, random_mask := 15 } :
        Globals).random_bits = 0 ∧
      ({ initial_globals with
          output_file := some "out.png", random_bits := 3, random_mask := 15 } :
        Globals).random_mask = 0) :=
  C5_noise_mask [Opt.output_file "out.png", Opt.random 3] env_ok sample_rand
    { initial_globals with output_file := some "out.png", random_bits := 3, random_mask := 15 }
    (write_file
      { initial_globals with output_file := some "out.png", random_bits := 3, random_mask := 15 }
      env_ok sample_rand "out.png")
    rfl (by decide)

/-- Counterexample to C5 as stated: with the options `-o out.png` alone,
`write_file` is called with `random_bits = 0` and `random_mask = 0`, not 1. -/
theorem C5_noise_mask_counterexample :
    ∃ g run, (main [Opt.output_file "out.png"] env_ok sample_rand).call = some (g, run) ∧
      g.random_bits = 0 ∧ g.random_mask = 0 ∧
      g.random_mask ≠ 2 ^ (g.random_bits + 1).toNat - 1 :=
  ⟨{ initial_globals with output_file := some "out.png" },
    write_file { initial_globals with output_file := some "out.png" } env_ok sample_rand
      "out.png", rfl, rfl, rfl, by decide⟩

/-- C6 (image handed to the encoder).  Let `g` be the variables that the option loop
of `main` leaves for some list of options (every state in which `write_file` is
called), with `board_size ≥ 1`, `cell_scale ≥ 1`, `random_bits` in `[0, 8]` and
`3 * total_width ≤ 2^31 - 1` (so that no arithmetic of `write_file` wraps).  In a
run in which the allocations, `fopen` and the libpng calls up to `png_malloc`
succeed: `png_set_IHDR` is called with width and height `total_width`, bit depth 8,
RGB, no interlacing; `png_set_rows` is given a table of `total_width` rows; row `i`
starts at offset `i * 3 * total_width`; and the byte at `row_pointers[i] + 3 * j + k`
is the one stored for channel `k` of pixel `(i mod cell_scale, j mod cell_scale)` of
cell `(i div cell_scale, j div cell_scale)`, so it satisfies the parity invariant of
that cell, both for the mask `random_mask` in force and for the noise mask
`2^(random_bits+1) - 1`: at most the mask in a cell of parity 0, between 255 minus
the mask and 255 in a cell of parity 1. -/
theorem C6_image_handed_to_encoder (opts : List Opt) (g : Globals) (env : Env)
    (rand : Nat → Nat) (init : Int → Nat) (output_file_name : String)
    (hconf : parse_options opts initial_globals = Except.ok g)
    (hsize : 1 ≤ g.checkerboard_size) (hincr : 1 ≤ g.checkerboard_incr)
    (hbits : 0 ≤ g.random_bits ∧ g.random_bits ≤ 8)
    (h3W : 3 * (g.checkerboard_size * g.checkerboard_incr) ≤ 2147483647)
    (hmalloc : env.malloc_ok = true) (hfopen : env.fopen_ok = true)
    (hwrite : env.create_write_struct_ok = true) (hinfo : env.create_info_struct_ok = true)
    (hio : env.png_raises PngCall.init_io = false)
    (hihdr : env.png_raises PngCall.set_IHDR = false)
    (hlevel : env.png_raises PngCall.set_compression_level = false)
    (hpmalloc : env.png_raises PngCall.malloc = false)
    (hnull : env.png_malloc_null = false)
    (i j k : Nat) (hi : (i : Int) < g.checkerboard_size * g.checkerboard_incr)
    (hj : (j : Int) < g.checkerboard_size * g.checkerboard_incr) (hk : k < 3) :
    Event.png_set_IHDR (g.checkerboard_size * g.checkerboard_incr)
        (g.checkerboard_size * g.checkerboard_incr) 8 ColorType.RGB Interlace.NONE ∈
      (write_file g env rand output_file_name).events ∧
    Event.png_set_rows (row_pointers g) ∈ (write_file g env rand output_file_name).events ∧
    ((row_pointers g).length : Int) = g.checkerboard_size * g.checkerboard_incr ∧
    (row_pointers g)[i]? =
      some ((i : Int) * (3 * (g.checkerboard_size * g.checkerboard_incr))) ∧
    (∃ e ∈ (write_file g env rand output_file_name).synth.stores,
      e.row = ((i / g.checkerboard_incr.toNat : Nat) : Int) ∧
      e.column = ((j / g.checkerboard_incr.toNat : Nat) : Int) ∧
      e.x_pixel = ((i % g.checkerboard_incr.toNat : Nat) : Int) ∧
      e.y_pixel = ((j % g.checkerboard_incr.toNat : Nat) : Int) ∧
      e.channel = k ∧
      e.index = (i : Int) * (3 * (g.checkerboard_size * g.checkerboard_incr)) + 3 * j + k ∧
      replay init (write_file g env rand output_file_name).synth.stores
        ((i : Int) * (3 * (g.checkerboard_size * g.checkerboard_incr)) + 3 * j + k) =
          e.value) ∧
    (((i / g.checkerboard_incr.toNat) ^^^ (j / g.checkerboard_incr.toNat)) &&& 1 = 0 →
      (replay init (write_file g env rand output_file_name).synth.stores
        ((i : Int) * (3 * (g.checkerboard_size * g.checkerboard_incr)) + 3 * j + k) : Int)
          ≤ g.random_mask ∧
      (replay init (write_file g env rand output_file_name).synth.stores
        ((i : Int) * (3 * (g.checkerboard_size * g.checkerboard_incr)) + 3 * j + k) : Int)
          ≤ 2 ^ (g.random_bits + 1).toNat - 1) ∧
    (((i / g.checkerboard_incr.toNat) ^^^ (j / g.checkerboard_incr.toNat)) &&& 1 = 1 →
      255 - g.random_mask ≤
        (replay init (write_file g env rand output_file_name).synth.stores
          ((i : Int) * (3 * (g.checkerboard_size * g.checkerboard_incr)) + 3 * j + k) : Int) ∧
      255 - (2 ^ (g.random_bits + 1).toNat - 1) ≤
        (replay init (write_file g env rand output_file_name).synth.stores
          ((i : Int) * (3 * (g.checkerboard_size * g.checkerboard_incr)) + 3 * j + k) : Int) ∧
      (replay init (write_file g env rand output_file_name).synth.stores
        ((i : Int) * (3 * (g.checkerboard_size * g.checkerboard_incr)) + 3 * j + k) : Int)
          ≤ 255) := by
  obtain ⟨-, hW, h63⟩ := narrow_config g hsize hincr h3W
  obtain ⟨hw, htall, hwide⟩ := checks_pass g hsize hincr h3W
  obtain ⟨S, I, hS, hI, -, hI1, hWn, h63n⟩ := config_nat g hsize hincr hW h63
  have hIn : g.checkerboard_incr.toNat = I := by rw [hI]; exact Int.toNat_ofNat I
  have hSn : g.checkerboard_size.toNat = S := by rw [hS]; exact Int.toNat_ofNat S
  have hWc : g.checkerboard_size * g.checkerboard_incr = ((S * I : Nat) : Int) := by
    rw [hS, hI]; push_cast; rfl
  have h3Wn : 3 * (S * I) ≤ 2147483647 := by rw [hWc] at h3W; exact_mod_cast h3W
  have hi' : i < S * I := by rw [hWc] at hi; exact_mod_cast hi
  have hj' : j < S * I := by rw [hWc] at hj; exact_mod_cast hj
  have hwn : (int_width g).toNat = S * I := by rw [hw, hWc]; exact Int.toNat_ofNat _
  have hu : toUInt32 (int_width g) = g.checkerboard_size * g.checkerboard_incr := by
    rw [hw]; unfold toUInt32; omega
  have hr : i / I < S := Nat.div_lt_of_lt_mul (lt_of_lt_of_eq hi' (Nat.mul_comm S I))
  have hc : j / I < S := Nat.div_lt_of_lt_mul (lt_of_lt_of_eq hj' (Nat.mul_comm S I))
  have hx : i % I < I := Nat.mod_lt _ hI1
  have hy : j % I < I := Nat.mod_lt _ hI1
  have haddr : (i : Int) * (3 * (g.checkerboard_size * g.checkerboard_incr)) + 3 * j + k =
      (offset_nat S I (i / I) (j / I) (i % I) (j % I) k : Int) := by
    rw [scanline_offset, hWc]; push_cast; ring
  have hstores : (write_file g env rand output_file_name).synth.stores =
      (synthesize g rand).stores := by
    unfold write_file; simp [hmalloc]
  have hevents := write_file_events_ok g env rand output_file_name htall hwide hmalloc hfopen
    hwrite hinfo hio hihdr hlevel hpmalloc hnull
  rw [hu] at hevents
  obtain ⟨b, m, -, hb, hm, hle⟩ := configured_mask opts g hconf hbits
  have hnoise : (2 : Int) ^ (g.random_bits + 1).toNat - 1 = ((2 ^ (b + 1) - 1 : Nat) : Int) := by
    rw [hb]; exact noise_cast b
  have hle' : (m : Int) ≤ ((2 ^ (b + 1) - 1 : Nat) : Int) := by exact_mod_cast hle
  obtain ⟨hd, hl⟩ := buffer_parity g rand init S I (i / I) (j / I) (i % I) (j % I) k m
    hS hI hWn h63n hr hc hx hy hk hm
  rw [hevents, hstores, hIn, haddr, hnoise, hm]
  refine ⟨by simp, by simp [write_rows], ?_, ?_, ?_, ?_, ?_⟩
  · rw [row_pointers_length, hwn, hWc]
  · rw [row_pointers_get g i (by rw [hwn]; exact hi'), row_offset_eq g S I i hS hI h3Wn hi',
      hWc]
    push_cast; rfl
  · refine ⟨cell_store g rand (i / I) (j / I) (i % I) (j % I) k, ?_, rfl, rfl, rfl, rfl, rfl,
      ?_, ?_⟩
    · rw [mem_stores, hSn, hIn]
      exact ⟨_, _, _, _, _, hr, hc, hx, hy, hk, rfl⟩
    · exact cell_store_index g rand S I _ _ _ _ k hS hI hWn h63n hr hc hx hy hk
    · exact buffer_at g rand init S I _ _ _ _ k hS hI hWn h63n hr hc hx hy hk
  · intro h0
    exact ⟨hd h0, le_trans (hd h0) hle'⟩
  · intro h1
    have h2 := hl h1
    exact ⟨h2.1, le_trans (sub_le_sub_left hle' 255) h2.1, by exact_mod_cast h2.2⟩

/-- Witness of C6: the run with options `-o out.png -s 2` (no random-bits option, so
`random_mask` is 0), every call succeeding; scanline 0, column 1, channel 0 is the
first byte of the light cell `(0, 1)`. -/
theorem C6_image_handed_to_encoder_witness :
    Event.png_set_IHDR (board_2x2_plain.checkerboard_size * board_2x2_plain.checkerboard_incr)
        (board_2x2_plain.checkerboard_size * board_2x2_plain.checkerboard_incr) 8
        ColorType.RGB Interlace.NONE ∈
      (write_file board_2x2_plain env_ok sample_rand "out.png").events ∧
    Event.png_set_rows (row_pointers board_2x2_plain) ∈
      (write_file board_2x2_plain env_ok sample_rand "out.png").events ∧
    ((row_pointers board_2x2_plain).length : Int) =
      board_2x2_plain.checkerboard_size * board_2x2_plain.checkerboard_incr ∧
    (row_pointers board_2x2_plain)[0]? =
      some (((0 : Nat) : Int) *
        (3 * (board_2x2_plain.checkerboard_size * board_2x2_plain.checkerboard_incr))) ∧
    (∃ e ∈ (write_file board_2x2_plain env_ok sample_rand "out.png").synth.stores,
      e.row = ((0 / board_2x2_plain.checkerboard_incr.toNat : Nat) : Int) ∧
      e.column = ((1 / board_2x2_plain.checkerboard_incr.toNat : Nat) : Int) ∧
      e.x_pixel = ((0 % board_2x2_plain.checkerboard_incr.toNat : Nat) : Int) ∧
      e.y_pixel = ((1 % board_2x2_plain.checkerboard_incr.toNat : Nat) : Int) ∧
      e.channel = ((0 : Nat) : Int) ∧
      e.index = ((0 : Nat) : Int) *
        (3 * (board_2x2_plain.checkerboard_size * board_2x2_plain.checkerboard_incr)) +
          3 * ((1 : Nat) : Int) + ((0 : Nat) : Int) ∧
      replay sample_init (write_file board_2x2_plain env_ok sample_rand "out.png").synth.stores
        (((0 : Nat) : Int) *
          (3 * (board_2x2_plain.checkerboard_size * board_2x2_plain.checkerboard_incr)) +
            3 * ((1 : Nat) : Int) + ((0 : Nat) : Int)) = e.value) ∧
    (((0 / board_2x2_plain.checkerboard_incr.toNat) ^^^
        (1 / board_2x2_plain.checkerboard_incr.toNat)) &&& 1 = 0 →
      (replay sample_init (write_file board_2x2_plain env_ok sample_rand "out.png").synth.stores
        (((0 : Nat) : Int) *
          (3 * (board_2x2_plain.checkerboard_size * board_2x2_plain.checkerboard_incr)) +
            3 * ((1 : Nat) : Int) + ((0 : Nat) : Int)) : Int) ≤ board_2x2_plain.random_mask ∧
      (replay sample_init (write_file board_2x2_plain env_ok sample_rand "out.png").synth.stores
        (((0 : Nat) : Int) *
          (3 * (board_2x2_plain.checkerboard_size * board_2x2_plain.checkerboard_incr)) +
            3 * ((1 : Nat) : Int) + ((0 : Nat) : Int)) : Int)
          ≤ 2 ^ (board_2x2_plain.random_bits + 1).toNat - 1) ∧
    (((0 / board_2x2_plain.checkerboard_incr.toNat) ^^^
        (1 / board_2x2_plain.checkerboard_incr.toNat)) &&& 1 = 1 →
      255 - board_2x2_plain.random_mask ≤
        (replay sample_init
          (write_file board_2x2_plain env_ok sample_rand "out.png").synth.stores
          (((0 : Nat) : Int) *
            (3 * (board_2x2_plain.checkerboard_size * board_2x2_plain.checkerboard_incr)) +
              3 * ((1 : Nat) : Int) + ((0 : Nat) : Int)) : Int) ∧
      255 - (2 ^ (board_2x2_plain.random_bits + 1).toNat - 1) ≤
        (replay sample_init
          (write_file board_2x2_plain env_ok sample_rand "out.png").synth.stores
          (((0 : Nat) : Int) *
            (3 * (board_2x2_plain.checkerboard_size * board_2x2_plain.checkerboard_incr)) +
              3 * ((1 : Nat) : Int) + ((0 : Nat) : Int)) : Int) ∧
      (replay sample_init (write_file board_2x2_plain env_ok sample_rand "out.png").synth.stores
        (((0 : Nat) : Int) *
          (3 * (board_2x2_plain.checkerboard_size * board_2x2_plain.checkerboard_incr)) +
            3 * ((1 : Nat) : Int) + ((0 : Nat) : Int)) : Int) ≤ 255) :=
  C6_image_handed_to_encoder [Opt.output_file "out.png", Opt.size 2] board_2x2_plain env_ok
    sample_rand sample_init "out.png" rfl
    (by decide) (by decide) (by decide) (by decide) rfl rfl rfl rfl rfl rfl rfl
    rfl rfl 0 1 0 (by decide) (by decide) (by decide)

/-- C9 as amended (dimension errors).  On every execution of `write_file` in which a
dimension check fires, the output file has already been opened; the error is raised
before the row table is allocated or built and before `png_write_png`, and the
recovery block destroys the libpng structures, closes the file and exits with
`EXIT_FAILURE`. -/
theorem C9_dimension_error_after_fopen (g : Globals) (env : Env) (rand : Nat → Nat)
    (output_file_name text : String)
    (hfire : Event.png_error text ∈ (write_file g env rand output_file_name).events) :
    (text = "Image is too tall to process in memory" ∨
      text = "Image is too wide to process in memory") ∧
    (write_file g env rand output_file_name).events =
      [Event.malloc (toSizeT (output_buffer_size g)), Event.fopen output_file_name "wb",
        Event.png_create_write_struct, Event.png_create_info_struct, Event.png_init_io,
        Event.png_set_IHDR (toUInt32 (int_width g)) (toUInt32 (int_width g)) 8
          ColorType.RGB Interlace.NONE,
        Event.png_set_compression_level g.png_compression_level_value,
        Event.png_error text,
        Event.fprintf_stderr "Error during png file processing.\n",
        Event.png_destroy_write_struct, Event.fclose, Event.exit EXIT_FAILURE] := by
  unfold write_file at hfire ⊢
  by_cases h0 : env.malloc_ok = false
  · simp [h0] at hfire
  · simp only [Bool.not_eq_false] at h0
    simp only [h0, Bool.true_eq_false, if_false, List.mem_cons, reduceCtorEq, false_or]
      at hfire
    obtain ⟨h1, h2⟩ := png_error_open_and_encode g env output_file_name text hfire
    obtain ⟨h3, h4⟩ := png_error_protected_region g env output_file_name text h2
    refine ⟨h3, ?_⟩
    simp only [h0, Bool.true_eq_false, if_false]
    rw [h1, h4]
    rfl

/-- Witness of C9 as amended: `board_size = 1431655766`, `cell_scale = 1`. -/
theorem C9_dimension_error_after_fopen_witness :
    ("Image is too wide to process in memory" = "Image is too tall to process in memory" ∨
      "Image is too wide to process in memory" = "Image is too wide to process in memory") ∧
    (write_file board_1431655766 env_ok sample_rand "out.png").events =
      [Event.malloc (toSizeT (output_buffer_size board_1431655766)),
        Event.fopen "out.png" "wb",
        Event.png_create_write_struct, Event.png_create_info_struct, Event.png_init_io,
        Event.png_set_IHDR (toUInt32 (int_width board_1431655766))
          (toUInt32 (int_width board_1431655766)) 8 ColorType.RGB Interlace.NONE,
        Event.png_set_compression_level board_1431655766.png_compression_level_value,
        Event.png_error "Image is too wide to process in memory",
        Event.fprintf_stderr "Error during png file processing.\n",
        Event.png_destroy_write_struct, Event.fclose, Event.exit EXIT_FAILURE] :=
  C9_dimension_error_after_fopen board_1431655766 env_ok sample_rand "out.png"
    "Image is too wide to process in memory" (by decide)

/-- Counterexample to C9 as stated: with `board_size = 1431655766` and
`cell_scale = 1` the check of line 141 fires, and `fopen` has been called before. -/
theorem C9_dimension_error_counterexample :
    (write_file board_1431655766 env_ok sample_rand "out.png").events =
      [Event.malloc 6148914696963140268, Event.fopen "out.png" "wb",
        Event.png_create_write_struct, Event.png_create_info_struct, Event.png_init_io,
        Event.png_set_IHDR 1431655766 1431655766 8 ColorType.RGB Interlace.NONE,
        Event.png_set_compression_level 6,
        Event.png_error "Image is too wide to process in memory",
        Event.fprintf_stderr "Error during png file processing.\n",
        Event.png_destroy_write_struct, Event.fclose, Event.exit 1] := by
  decide

/-- C10 at two failing inputs: when `png_create_write_struct` or
`png_create_info_struct` returns NULL after `fopen` succeeded, `write_file` exits
without calling `fclose`. -/
theorem C10_exit_without_fclose :
    (write_file board_2x2 env_no_write_struct sample_rand "out.png").events =
      [Event.malloc 12, Event.fopen "out.png" "wb", Event.png_create_write_struct,
        Event.fprintf_stderr "Unable to allocate png write structure.\n", Event.exit 1] ∧
    (write_file board_2x2 env_no_info_struct sample_rand "out.png").events =
      [Event.malloc 12, Event.fopen "out.png" "wb", Event.png_create_write_struct,
        Event.png_create_info_struct, Event.png_destroy_write_struct,
        Event.fprintf_stderr "Unable to allocate png info structure.\n", Event.exit 1] ∧
    (write_file board_2x2 env_no_write_struct sample_rand "out.png").events.count
      Event.fclose = 0 ∧
    (write_file board_2x2 env_no_info_struct sample_rand "out.png").events.count
      Event.fclose = 0 := by
  decide

/-- C11 (missing output path).  For every sequence of options with no output-file
option and neither a help nor an unrecognised option, `main` prints that the output
file must be specified and exits with `EXIT_FAILURE`, which is not 0, without calling
`write_file`: no `malloc` and no `fopen` is made.  And whenever `main` calls
`write_file` (an output path was given) and `write_file` returns, `main` ends with
`exit (0)`. -/
theorem C11_missing_output_path (opts : List Opt) (env : Env) (rand : Nat → Nat) :
    ((∀ o ∈ opts, is_output_file o = false ∧ ends_loop o = false) →
      (main opts env rand).call = none ∧
      (main opts env rand).events =
        [Event.fprintf_stderr "The output file must be specified.\n",
          Event.exit EXIT_FAILURE] ∧
      EXIT_FAILURE ≠ 0 ∧
      (∀ size, Event.malloc size ∉ (main opts env rand).events) ∧
      (∀ path mode, Event.fopen path mode ∉ (main opts env rand).events)) ∧
    (∀ g run, (main opts env rand).call = some (g, run) →
      (∃ f, g.output_file = some f ∧ run = write_file g env rand f) ∧
      (run.events.getLast? = some Event.return_from_write_file →
        (main opts env rand).events = run.events ++ [Event.exit 0])) := by
  constructor
  · intro h
    obtain ⟨g, hg, hf⟩ := parse_options_no_output opts initial_globals h
    have hnone : g.output_file = none := by rw [hf]; rfl
    obtain ⟨h1, h2⟩ := main_no_output opts env rand g hg hnone
    refine ⟨h1, h2, by decide, ?_, ?_⟩
    · intro size; rw [h2]; simp
    · intro path mode; rw [h2]; simp
  · intro g run hcall
    obtain ⟨f, hf, hrun⟩ := main_call_run opts env rand g run hcall
    refine ⟨⟨f, hf, hrun⟩, fun hret => ?_⟩
    have hg := main_call opts env rand g run hcall
    rw [(main_ok opts env rand g f hg hf).2, ← hrun, if_pos hret]
    rfl

/-- Witness of C11: the options `-s 2 -r 0` give no output path; the options
`-o out.png -s 2`, with every call succeeding, end with `exit (0)`. -/
theorem C11_missing_output_path_witness :
    ((main [Opt.size 2, Opt.random 0] env_ok sample_rand).call = none ∧
      (main [Opt.size 2, Opt.random 0] env_ok sample_rand).events =
        [Event.fprintf_stderr "The output file must be specified.\n",
          Event.exit EXIT_FAILURE] ∧
      EXIT_FAILURE ≠ 0 ∧
      (∀ size, Event.malloc size ∉ (main [Opt.size 2, Opt.random 0] env_ok sample_rand).events) ∧
      (∀ path mode,
        Event.fopen path mode ∉ (main [Opt.size 2, Opt.random 0] env_ok sample_rand).events)) ∧
    (main [Opt.output_file "out.png", Opt.size 2] env_ok sample_rand).events =
      (write_file { initial_globals with output_file := some "out.png", checkerboard_size := 2 }
        env_ok sample_rand "out.png").events ++ [Event.exit 0] :=
  ⟨(C11_missing_output_path [Opt.size 2, Opt.random 0] env_ok sample_rand).1 (by decide),
    ((C11_missing_output_path [Opt.output_file "out.png", Opt.size 2] env_ok sample_rand).2
      { initial_globals with output_file := some "out.png", checkerboard_size := 2 }
      (write_file { initial_globals with output_file := some "out.png", checkerboard_size := 2 }
        env_ok sample_rand "out.png") rfl).2 (by decide)⟩

/-- C12 as amended (no validation in `main`).  For every list of options that names
an output file and holds no help or unrecognised option, whatever the values of the
other options: the option loop ends normally, and `main` calls `write_file` with
`board_size`, `cell_scale`, `random_bits` and the compression level equal to the
last value given with the corresponding option, or to the initial values 1024, 1, 0
and 6 when the option is absent; the first call of the run is the `malloc` of the
pixel buffer.  So `main` reaches `write_file` with `board_size ≥ 1`,
`cell_scale ≥ 1`, `random_bits` in `[0, 8]` and `compression_level` in `[0, 9]`
whenever every value given lies in its range, and no value is rejected. -/
theorem C12_options_passed_unchecked (opts : List Opt) (env : Env) (rand : Nat → Nat)
    (hloop : ∀ o ∈ opts, ends_loop o = false)
    (hout : ∃ o ∈ opts, is_output_file o = true) :
    ∃ (g : Globals) (f : String),
      parse_options opts initial_globals = Except.ok g ∧ g.output_file = some f ∧
      (main opts env rand).call = some (g, write_file g env rand f) ∧
      g.checkerboard_size = last_size opts ∧
      g.checkerboard_incr = last_increment opts ∧
      g.random_bits = last_random opts ∧
      g.png_compression_level_value = last_compression_level opts ∧
      (main opts env rand).events.head? =
        some (Event.malloc (toSizeT (output_buffer_size g))) ∧
      ((∀ o ∈ opts, option_in_range o = true) →
        1 ≤ g.checkerboard_size ∧ 1 ≤ g.checkerboard_incr ∧
        (0 ≤ g.random_bits ∧ g.random_bits ≤ 8) ∧
        (0 ≤ g.png_compression_level_value ∧ g.png_compression_level_value ≤ 9)) := by
  obtain ⟨g, hg⟩ := parse_options_ok opts initial_globals hloop
  have hsome := parse_options_output opts initial_globals g hg (Or.inr hout)
  obtain ⟨f, hf⟩ := Option.isSome_iff_exists.1 hsome
  obtain ⟨h1, h2, h3⟩ := parse_options_values opts initial_globals g hg
  exact ⟨g, f, hg, hf, (main_ok opts env rand g f hg hf).1, h1, h2, h3,
    parse_options_level opts initial_globals g hg, main_head opts env rand g f hg hf,
    fun hvalid => parse_options_in_range opts initial_globals g hg hvalid (by decide)⟩

/-- Witness of C12 as amended: the options `-o out.png -s 0 -r 9 -i -1 -p 10`, each
numeric value outside its range. -/
theorem C12_options_passed_unchecked_witness :
    ∃ (g : Globals) (f : String),
      parse_options out_of_range_options initial_globals = Except.ok g ∧
      g.output_file = some f ∧
      (main out_of_range_options env_ok sample_rand).call =
        some (g, write_file g env_ok sample_rand f) ∧
      g.checkerboard_size = last_size out_of_range_options ∧
      g.checkerboard_incr = last_increment out_of_range_options ∧
      g.random_bits = last_random out_of_range_options ∧
      g.png_compression_level_value = last_compression_level out_of_range_options ∧
      (main out_of_range_options env_ok sample_rand).events.head? =
        some (Event.malloc (toSizeT (output_buffer_size g))) ∧
      ((∀ o ∈ out_of_range_options, option_in_range o = true) →
        1 ≤ g.checkerboard_size ∧ 1 ≤ g.checkerboard_incr ∧
        (0 ≤ g.random_bits ∧ g.random_bits ≤ 8) ∧
        (0 ≤ g.png_compression_level_value ∧ g.png_compression_level_value ≤ 9)) :=
  C12_options_passed_unchecked out_of_range_options env_ok sample_rand (by decide)
    (by decide)

/-- Counterexample to C12 as stated.  With `-o out.png -s 2 -r 9` `main` calls
`write_file` with `random_bits = 9`, the 12 bytes of the buffer are allocated, the
image is written and the program ends with `exit (0)`; with
`-o out.png -s 0 -r 9 -i -1 -p 10` `main` calls `write_file` with `board_size = 0`,
`random_bits = 9`, `cell_scale = -1` and compression level 10, and the first call
is the `malloc` of the buffer. -/
theorem C12_validation_counterexample :
    (main nine_bits_options env_ok sample_rand).call.map
        (fun p => (p.1.checkerboard_size, p.1.random_bits, p.1.checkerboard_incr,
          p.1.png_compression_level_value)) = some (2, 9, 1, 6) ∧
    (main nine_bits_options env_ok sample_rand).events =
      [Event.malloc 12, Event.fopen "out.png" "wb", Event.png_create_write_struct,
        Event.png_create_info_struct, Event.png_init_io,
        Event.png_set_IHDR 2 2 8 ColorType.RGB Interlace.NONE,
        Event.png_set_compression_level 6, Event.png_malloc 16,
        Event.png_set_rows [0, 6], Event.png_write_png, Event.png_destroy_write_struct,
        Event.free_output_buffer, Event.fclose, Event.return_from_write_file,
        Event.exit 0] ∧
    (main out_of_range_options env_ok sample_rand).call.map
        (fun p => (p.1.checkerboard_size, p.1.random_bits, p.1.checkerboard_incr,
          p.1.png_compression_level_value)) = some (0, 9, -1, 10) ∧
    (main out_of_range_options env_ok sample_rand).events.head? =
      some (Event.malloc 0) := by
  decide

/-- C13 (determinism of structure).  Let `g` be the variables that the option loop
of `main` leaves for some list of options (every state in which `write_file` is
called), with `board_size ≥ 1`, `cell_scale ≥ 1`, `random_bits` in `[0, 8]` and
`total_width ≤ 2^31 - 1`, and take two streams of draws (and two initial contents
of the buffer).  At the index that lines 78-83 compute for channel `k` of pixel
`(x, y)` of cell `(r, c)`, the two buffers agree on every bit outside the noise mask
`2^(random_bits+1) - 1`: `(b1 XOR b2) AND NOT noise_mask = 0` on 8 bits; these bits
are all 0 when `(r XOR c) AND 1 = 0` and all 1 when `(r XOR c) AND 1 = 1`; and for
`random_bits ≤ 6` the top bit of the byte is the parity of the cell. -/
theorem C13_determinism_of_structure (opts : List Opt) (g : Globals)
    (rand1 rand2 : Nat → Nat) (init1 init2 : Int → Nat)
    (hconf : parse_options opts initial_globals = Except.ok g)
    (hsize : 1 ≤ g.checkerboard_size) (hincr : 1 ≤ g.checkerboard_incr)
    (hbits : 0 ≤ g.random_bits ∧ g.random_bits ≤ 8)
    (hW : g.checkerboard_size * g.checkerboard_incr ≤ 2147483647)
    (r c x y k : Nat) (hr : (r : Int) < g.checkerboard_size)
    (hc : (c : Int) < g.checkerboard_size) (hx : (x : Int) < g.checkerboard_incr)
    (hy : (y : Int) < g.checkerboard_incr) (hk : k < 3) :
    Int.land
        (Int.xor (output_buffer g rand1 init1 (wrap64 (buffer_pointer g r c x y + k)) : Int)
          (output_buffer g rand2 init2 (wrap64 (buffer_pointer g r c x y + k)) : Int))
        (not8 (2 ^ (g.random_bits + 1).toNat - 1)) = 0 ∧
    ((r ^^^ c) &&& 1 = 0 →
      Int.land (output_buffer g rand1 init1 (wrap64 (buffer_pointer g r c x y + k)) : Int)
        (not8 (2 ^ (g.random_bits + 1).toNat - 1)) = 0) ∧
    ((r ^^^ c) &&& 1 = 1 →
      Int.land (output_buffer g rand1 init1 (wrap64 (buffer_pointer g r c x y + k)) : Int)
        (not8 (2 ^ (g.random_bits + 1).toNat - 1)) =
          not8 (2 ^ (g.random_bits + 1).toNat - 1)) ∧
    (g.random_bits ≤ 6 →
      output_buffer g rand1 init1 (wrap64 (buffer_pointer g r c x y + k)) / 128 =
        (r ^^^ c) &&& 1) := by
  obtain ⟨S, I, hS, hI, -, -, hWn⟩ := config_nat_width g hsize hincr hW
  have hr' : r < S := by rw [hS] at hr; exact_mod_cast hr
  have hc' : c < S := by rw [hS] at hc; exact_mod_cast hc
  have hx' : x < I := by rw [hI] at hx; exact_mod_cast hx
  have hy' : y < I := by rw [hI] at hy; exact_mod_cast hy
  obtain ⟨j, m, hj, hbj, hm, hle⟩ := configured_mask opts g hconf hbits
  have hnoise : (2 : Int) ^ (g.random_bits + 1).toNat - 1 = ((2 ^ (j + 1) - 1 : Nat) : Int) := by
    rw [hbj]; exact noise_cast j
  obtain ⟨d1, l1⟩ := byte_bits g rand1 init1 S I r c x y k j m hS hI hWn hr' hc' hx' hy' hk hj
    hm hle
  obtain ⟨d2, l2⟩ := byte_bits g rand2 init2 S I r c x y k j m hS hI hWn hr' hc' hx' hy' hk hj
    hm hle
  have hp : (r ^^^ c) &&& 1 = 0 ∨ (r ^^^ c) &&& 1 = 1 := by
    rw [Nat.and_one_is_mod]; omega
  have hj6 : g.random_bits ≤ 6 → j ≤ 6 := by
    intro h; rw [hbj] at h; exact_mod_cast h
  rw [hnoise, not8_cast, xor_cast, land_cast, land_cast]
  refine ⟨?_, fun h0 => ?_, fun h1 => ?_, fun h6 => ?_⟩
  · rw [Nat.and_xor_distrib_right]
    rcases hp with h | h
    · rw [(d1 h).1, (d2 h).1]; rfl
    · rw [(l1 h).1, (l2 h).1, Nat.xor_self]; rfl
  · rw [(d1 h0).1]; rfl
  · rw [(l1 h1).1]
  · rcases hp with h | h
    · rw [h]; exact (d1 h).2 (hj6 h6)
    · rw [h]; exact (l1 h).2 (hj6 h6)

/-- Witness of C13: the run with options `-s 2 -i 2 -r 2` (a 2 x 2 board of 2 x 2
cells, mask 7), two different streams and initial contents; channel 2 of pixel
`(1, 0)` of the light cell `(0, 1)`. -/
theorem C13_determinism_of_structure_witness :
    Int.land
        (Int.xor
          (output_buffer board_2x2_scaled sample_rand sample_init
            (wrap64 (buffer_pointer board_2x2_scaled ((0 : Nat) : Int) ((1 : Nat) : Int)
              ((1 : Nat) : Int) ((0 : Nat) : Int) + ((2 : Nat) : Int))) : Int)
          (output_buffer board_2x2_scaled other_rand init_99
            (wrap64 (buffer_pointer board_2x2_scaled ((0 : Nat) : Int) ((1 : Nat) : Int)
              ((1 : Nat) : Int) ((0 : Nat) : Int) + ((2 : Nat) : Int))) : Int))
        (not8 (2 ^ (board_2x2_scaled.random_bits + 1).toNat - 1)) = 0 ∧
    ((0 ^^^ 1) &&& 1 = 0 →
      Int.land (output_buffer board_2x2_scaled sample_rand sample_init
          (wrap64 (buffer_pointer board_2x2_scaled ((0 : Nat) : Int) ((1 : Nat) : Int)
            ((1 : Nat) : Int) ((0 : Nat) : Int) + ((2 : Nat) : Int))) : Int)
        (not8 (2 ^ (board_2x2_scaled.random_bits + 1).toNat - 1)) = 0) ∧
    ((0 ^^^ 1) &&& 1 = 1 →
      Int.land (output_buffer board_2x2_scaled sample_rand sample_init
          (wrap64 (buffer_pointer board_2x2_scaled ((0 : Nat) : Int) ((1 : Nat) : Int)
            ((1 : Nat) : Int) ((0 : Nat) : Int) + ((2 : Nat) : Int))) : Int)
        (not8 (2 ^ (board_2x2_scaled.random_bits + 1).toNat - 1)) =
          not8 (2 ^ (board_2x2_scaled.random_bits + 1).toNat - 1)) ∧
    (board_2x2_scaled.random_bits ≤ 6 →
      output_buffer board_2x2_scaled sample_rand sample_init
          (wrap64 (buffer_pointer board_2x2_scaled ((0 : Nat) : Int) ((1 : Nat) : Int)
            ((1 : Nat) : Int) ((0 : Nat) : Int) + ((2 : Nat) : Int))) / 128 =
        (0 ^^^ 1) &&& 1) :=
  C13_determinism_of_structure [Opt.size 2, Opt.increment 2, Opt.random 2] board_2x2_scaled
    sample_rand other_rand sample_init init_99 rfl
    (by decide) (by decide) (by decide) (by decide) 0 1 1 0 2 (by decide)
    (by decide) (by decide) (by decide) (by decide)

/-- C14 (degenerate sizes).  If `board_size = 0` or `cell_scale = 0`, `board_size`
being a count of cells (a non-negative `int`), then `write_file` computes a width
of 0 and a buffer of 0 bytes, the loop stores nothing and draws nothing, the row
table is empty, neither dimension check fires, so that no `png_error` is raised by
`write_file`; and when the calls up to `png_malloc` succeed, the encoder is given
the dimensions 0 x 0 and an empty row table. -/
theorem C14_degenerate_sizes (g : Globals) (env : Env) (rand : Nat → Nat)
    (output_file_name : String)
    (hzero : g.checkerboard_size = 0 ∨ g.checkerboard_incr = 0)
    (hint : 0 ≤ g.checkerboard_size ∧ g.checkerboard_size ≤ 2147483647) :
    int_width g = 0 ∧ row_pixels g = 0 ∧ output_buffer_size g = 0 ∧
    (write_file g env rand output_file_name).synth.stores = [] ∧
    (write_file g env rand output_file_name).synth.calls = 0 ∧
    row_pointers g = [] ∧
    too_tall g = false ∧ too_wide g = false ∧
    (∀ text, Event.png_error text ∉ (write_file g env rand output_file_name).events) ∧
    (env.malloc_ok = true ∧ env.fopen_ok = true ∧ env.create_write_struct_ok = true ∧
        env.create_info_struct_ok = true ∧ env.png_raises PngCall.init_io = false ∧
        env.png_raises PngCall.set_IHDR = false ∧
        env.png_raises PngCall.set_compression_level = false ∧
        env.png_raises PngCall.malloc = false ∧ env.png_malloc_null = false →
      Event.png_set_IHDR 0 0 8 ColorType.RGB Interlace.NONE ∈
        (write_file g env rand output_file_name).events ∧
      Event.png_set_rows [] ∈ (write_file g env rand output_file_name).events) := by
  have hprod : g.checkerboard_size * g.checkerboard_incr = 0 := by
    rcases hzero with h | h <;> simp [h]
  have hnat : g.checkerboard_size.toNat = 0 ∨ g.checkerboard_incr.toNat = 0 := by
    rcases hzero with h | h
    · exact Or.inl (by rw [h]; rfl)
    · exact Or.inr (by rw [h]; rfl)
  have hw : int_width g = 0 := by unfold int_width; rw [hprod]; rfl
  have hrp : row_pixels g = 0 := by unfold row_pixels; rw [hprod]; rfl
  have hsz : output_buffer_size g = 0 := by
    unfold output_buffer_size pixel_count; rw [hrp]; rfl
  have hrows : row_pointers g = [] := by rw [row_pointers_eq, hw]; rfl
  have htall : too_tall g = false := by
    unfold too_tall toSizeT PNG_UINT_32_MAX sizeof_png_byte
    rw [decide_eq_false_iff_not]
    omega
  have hwide : too_wide g = false := by
    unfold too_wide
    rw [hw]
    rfl
  have hsyn := synthesize_degenerate g rand hnat
  refine ⟨hw, hrp, hsz, ?_, ?_, hrows, htall, hwide, ?_, ?_⟩
  · unfold write_file; split <;> simp [hsyn]
  · unfold write_file; split <;> simp [hsyn]
  · intro text h
    rcases png_error_checks g env rand output_file_name text h with h1 | h1
    · rw [htall] at h1; exact absurd h1 (by decide)
    · rw [hwide] at h1; exact absurd h1 (by decide)
  · rintro ⟨h1, h2, h3, h4, h5, h6, h7, h8, h9⟩
    have hu : toUInt32 (int_width g) = 0 := by rw [hw]; rfl
    have hevents : (write_file g env rand output_file_name).events =
        Event.malloc (toSizeT (output_buffer_size g)) ::
          Event.fopen output_file_name "wb" :: Event.png_create_write_struct ::
          Event.png_create_info_struct :: Event.png_init_io ::
          Event.png_set_IHDR 0 0 8 ColorType.RGB Interlace.NONE ::
          Event.png_set_compression_level g.png_compression_level_value ::
          Event.png_malloc (row_pointers_size g) :: write_rows g env output_file_name := by
      unfold write_file open_and_encode protected_region
      simp [h1, h2, h3, h4, h5, h6, h7, h8, h9, htall, hwide, hu]
    rw [hevents]
    exact ⟨by simp, by simp [write_rows, hrows]⟩

/-- Witness of C14: 3 x 3 cells of 0 pixels, every call succeeding. -/
theorem C14_degenerate_sizes_witness :
    int_width board_3_by_zero = 0 ∧ row_pixels board_3_by_zero = 0 ∧
    output_buffer_size board_3_by_zero = 0 ∧
    (write_file board_3_by_zero env_ok sample_rand "out.png").synth.stores = [] ∧
    (write_file board_3_by_zero env_ok sample_rand "out.png").synth.calls = 0 ∧
    row_pointers board_3_by_zero = [] ∧
    too_tall board_3_by_zero = false ∧ too_wide board_3_by_zero = false ∧
    (∀ text, Event.png_error text ∉
      (write_file board_3_by_zero env_ok sample_rand "out.png").events) ∧
    (env_ok.malloc_ok = true ∧ env_ok.fopen_ok = true ∧ env_ok.create_write_struct_ok = true ∧
        env_ok.create_info_struct_ok = true ∧ env_ok.png_raises PngCall.init_io = false ∧
        env_ok.png_raises PngCall.set_IHDR = false ∧
        env_ok.png_raises PngCall.set_compression_level = false ∧
        env_ok.png_raises PngCall.malloc = false ∧ env_ok.png_malloc_null = false →
      Event.png_set_IHDR 0 0 8 ColorType.RGB Interlace.NONE ∈
        (write_file board_3_by_zero env_ok sample_rand "out.png").events ∧
      Event.png_set_rows [] ∈
        (write_file board_3_by_zero env_ok sample_rand "out.png").events) :=
  C14_degenerate_sizes board_3_by_zero env_ok sample_rand "out.png" (by decide) (by decide)

/-- C15 (defaults).  When the only option is the output path, `write_file` is called
with compression level 6, board size 1024, random bits 0 and cell scale 1, so that
the width is 1024 and the buffer has 3145728 bytes; and for every sequence of
options, a level passed to `png_set_compression_level` is the last value given with
the compression option, or 6 if none was given. -/
theorem C15_defaults (f : String) (opts : List Opt) (env : Env) (rand : Nat → Nat)
    (level : Int) :
    ((main [Opt.output_file f] env rand).call =
        some ({ initial_globals with output_file := some f },
          write_file { initial_globals with output_file := some f } env rand f) ∧
      ({ initial_globals with output_file := some f } : Globals).png_compression_level_value
        = 6 ∧
      ({ initial_globals with output_file := some f } : Globals).checkerboard_size = 1024 ∧
      ({ initial_globals with output_file := some f } : Globals).random_bits = 0 ∧
      ({ initial_globals with output_file := some f } : Globals).checkerboard_incr = 1 ∧
      int_width { initial_globals with output_file := some f } = 1024 ∧
      output_buffer_size { initial_globals with output_file := some f } = 3145728) ∧
    (Event.png_set_compression_level level ∈ (main opts env rand).events →
      level = last_compression_level opts) := by
  refine ⟨⟨rfl, rfl, rfl, rfl, rfl, rfl, rfl⟩, fun h => ?_⟩
  obtain ⟨g, hg, hl⟩ := main_level opts env rand level h
  rw [hl, parse_options_level opts initial_globals g hg]
  rfl

/-- Witness of C15: with `-p 1 -o out.png -p 4` and every call succeeding, the level
passed to the encoder is 4. -/
theorem C15_defaults_witness :
    Event.png_set_compression_level 4 ∈
      (main [Opt.png_compression_level 1, Opt.output_file "out.png",
        Opt.png_compression_level 4] env_ok sample_rand).events ∧
    (4 : Int) = last_compression_level
      [Opt.png_compression_level 1, Opt.output_file "out.png", Opt.png_compression_level 4] :=
  ⟨by decide,
    (C15_defaults "out.png"
      [Opt.png_compression_level 1, Opt.output_file "out.png", Opt.png_compression_level 4]
      env_ok sample_rand 4).2 (by decide)⟩

/-- C16 (byte truncation).  For every board size, cell scale, mask, stream of draws
and initial contents of the buffer, with `B` and `S` the numbers of passes of the
cell and pixel loops: the loop draws `3 * (B * S)^2` values and makes as many
stores; the stores are exactly, for each channel `k` of each pixel `(x, y)` of each
cell `(r, c)`, one store at the index of lines 78-83 of the low 8 bits of the
computed `int`, `(v AND mask) mod 256` in a cell of parity 0 and
`(255 XOR (v AND mask)) mod 256` in a cell of parity 1, where `v` is draw number
`3 * (((r * B + c) * S + x) * S + y) + k`.  The masks of `random_bits = 8` and
`random_bits = 7` are 511 and 255, and the loop does the same with either: same
draws, same stores, same buffer.  With either, the store made for a channel of a
light cell has the value 255 minus the low 8 bits of its draw, and so has the byte
of the buffer at its index when `total_width ≤ 2^31 - 1`. -/
theorem C16_byte_truncation (g : Globals) (rand : Nat → Nat) (init : Int → Nat) :
    (synthesize g rand).calls =
      3 * (g.checkerboard_size.toNat * g.checkerboard_incr.toNat) ^ 2 ∧
    (synthesize g rand).stores.length =
      3 * (g.checkerboard_size.toNat * g.checkerboard_incr.toNat) ^ 2 ∧
    (∀ e : Store, e ∈ (synthesize g rand).stores ↔
      ∃ r c x y k : Nat, r < g.checkerboard_size.toNat ∧ c < g.checkerboard_size.toNat ∧
        x < g.checkerboard_incr.toNat ∧ y < g.checkerboard_incr.toNat ∧ k < 3 ∧
        e = { row := r, column := c, x_pixel := x, y_pixel := y, channel := k,
              index := wrap64 (buffer_pointer g r c x y + k),
              value :=
                if (r ^^^ c) &&& 1 = 0 then
                  toUChar (Int.land
                    (rand (3 * (((r * g.checkerboard_size.toNat + c) *
                      g.checkerboard_incr.toNat + x) * g.checkerboard_incr.toNat + y) + k) : Int)
                    g.random_mask)
                else
                  toUChar (Int.xor 255 (Int.land
                    (rand (3 * (((r * g.checkerboard_size.toNat + c) *
                      g.checkerboard_incr.toNat + x) * g.checkerboard_incr.toNat + y) + k) : Int)
                    g.random_mask)) }) ∧
    mask_of_bits 8 = 511 ∧ mask_of_bits 7 = 255 ∧
    synthesize { g with random_bits := 8, random_mask := 511 } rand =
      synthesize { g with random_bits := 7, random_mask := 255 } rand ∧
    output_buffer { g with random_bits := 8, random_mask := 511 } rand init =
      output_buffer { g with random_bits := 7, random_mask := 255 } rand init ∧
    (∀ r c x y k : Nat, r < g.checkerboard_size.toNat → c < g.checkerboard_size.toNat →
      x < g.checkerboard_incr.toNat → y < g.checkerboard_incr.toNat → k < 3 →
      (r ^^^ c) &&& 1 = 1 →
      ({ row := r, column := c, x_pixel := x, y_pixel := y, channel := k,
         index := wrap64 (buffer_pointer g r c x y + k),
         value := 255 - rand (3 * (((r * g.checkerboard_size.toNat + c) *
           g.checkerboard_incr.toNat + x) * g.checkerboard_incr.toNat + y) + k) % 256 } : Store) ∈
        (synthesize { g with random_bits := 8, random_mask := 511 } rand).stores ∧
      ({ row := r, column := c, x_pixel := x, y_pixel := y, channel := k,
         index := wrap64 (buffer_pointer g r c x y + k),
         value := 255 - rand (3 * (((r * g.checkerboard_size.toNat + c) *
           g.checkerboard_incr.toNat + x) * g.checkerboard_incr.toNat + y) + k) % 256 } : Store) ∈
        (synthesize { g with random_bits := 7, random_mask := 255 } rand).stores ∧
      (g.checkerboard_size * g.checkerboard_incr ≤ 2147483647 →
        output_buffer { g with random_bits := 8, random_mask := 511 } rand init
            (wrap64 (buffer_pointer g r c x y + k)) =
          255 - rand (3 * (((r * g.checkerboard_size.toNat + c) *
            g.checkerboard_incr.toNat + x) * g.checkerboard_incr.toNat + y) + k) % 256 ∧
        output_buffer { g with random_bits := 7, random_mask := 255 } rand init
            (wrap64 (buffer_pointer g r c x y + k)) =
          255 - rand (3 * (((r * g.checkerboard_size.toNat + c) *
            g.checkerboard_incr.toNat + x) * g.checkerboard_incr.toNat + y) + k) % 256)) := by
  refine ⟨?_, stores_length g rand, ?_, by decide, by decide, synthesize_truncated g rand, ?_,
    ?_⟩
  · rw [synthesize_eq]
    show g.checkerboard_size.toNat * (g.checkerboard_size.toNat *
      (g.checkerboard_incr.toNat * (g.checkerboard_incr.toNat * 3))) = _
    ring
  · intro e
    rw [mem_stores]
    simp only [cell_store_eq]
  · unfold output_buffer
    rw [synthesize_truncated]
  · intro r c x y k hr hc hx hy hk h1
    have h8 := light_store { g with random_bits := 8, random_mask := 511 } rand r c x y k
      (Or.inl rfl) h1
    have h7 := light_store { g with random_bits := 7, random_mask := 255 } rand r c x y k
      (Or.inr rfl) h1
    refine ⟨?_, ?_, fun hW => ⟨?_, ?_⟩⟩
    · rw [mem_stores]
      exact ⟨r, c, x, y, k, hr, hc, hx, hy, hk, h8.symm⟩
    · rw [mem_stores]
      exact ⟨r, c, x, y, k, hr, hc, hx, hy, hk, h7.symm⟩
    · exact light_byte { g with random_bits := 8, random_mask := 511 } rand init r c x y k
        hr hc hx hy hk hW (Or.inl rfl) h1
    · exact light_byte { g with random_bits := 7, random_mask := 255 } rand init r c x y k
        hr hc hx hy hk hW (Or.inr rfl) h1

/-- Instance of C16: on the 2 x 2 board of one-pixel cells, channel 0 of the light
cell `(0, 1)` consumes draw number 3, and with the masks 511 and 255 alike the byte
at its index is 255 minus the low 8 bits of that draw. -/
theorem C16_byte_truncation_witness :
    output_buffer { board_2x2 with random_bits := 8, random_mask := 511 } sample_rand
        sample_init
        (wrap64 (buffer_pointer board_2x2 ((0 : Nat) : Int) ((1 : Nat) : Int)
          ((0 : Nat) : Int) ((0 : Nat) : Int) + ((0 : Nat) : Int))) =
      255 - sample_rand (3 * (((0 * board_2x2.checkerboard_size.toNat + 1) *
        board_2x2.checkerboard_incr.toNat + 0) * board_2x2.checkerboard_incr.toNat + 0) + 0)
          % 256 ∧
    output_buffer { board_2x2 with random_bits := 7, random_mask := 255 } sample_rand
        sample_init
        (wrap64 (buffer_pointer board_2x2 ((0 : Nat) : Int) ((1 : Nat) : Int)
          ((0 : Nat) : Int) ((0 : Nat) : Int) + ((0 : Nat) : Int))) =
      255 - sample_rand (3 * (((0 * board_2x2.checkerboard_size.toNat + 1) *
        board_2x2.checkerboard_incr.toNat + 0) * board_2x2.checkerboard_incr.toNat + 0) + 0)
          % 256 :=
  ((C16_byte_truncation board_2x2 sample_rand sample_init).2.2.2.2.2.2.2 0 1 0 0 0
    (by decide) (by decide) (by decide) (by decide) (by decide) (by decide)).2.2 (by decide)

/-- C17 (order of the draws).  For `board_size = B ≥ 1`, `cell_scale = S ≥ 1` and
`B * S ≤ 2^31 - 1`, the loop draws exactly `3 * (B * S)^2` values; the index that
lines 78-83 compute for channel `k` of pixel `(x, y)` of cell `(row, col)` is the
offset `3 * ((row * S + x) * B * S + (col * S + y)) + k` held in a `long long`
(the offset itself when `3 * (B * S)^2 < 2^63`); and the byte of the buffer there
comes from draw number `3 * (((row * B + col) * S + x) * S + y) + k`: it is
`(v AND mask) mod 256` when `(row XOR col) AND 1 = 0` and
`(255 XOR (v AND mask)) mod 256` otherwise, whatever the buffer held before. -/
theorem C17_draw_order (g : Globals) (rand : Nat → Nat) (init : Int → Nat)
    (hsize : 1 ≤ g.checkerboard_size) (hincr : 1 ≤ g.checkerboard_incr)
    (hW : g.checkerboard_size * g.checkerboard_incr ≤ 2147483647)
    (r c x y k : Nat) (hr : (r : Int) < g.checkerboard_size)
    (hc : (c : Int) < g.checkerboard_size) (hx : (x : Int) < g.checkerboard_incr)
    (hy : (y : Int) < g.checkerboard_incr) (hk : k < 3) :
    ((synthesize g rand).calls : Int) = 3 * (g.checkerboard_size * g.checkerboard_incr) ^ 2 ∧
    wrap64 (buffer_pointer g r c x y + k) =
      wrap64 (3 * (((r : Int) * g.checkerboard_incr + x) *
        (g.checkerboard_size * g.checkerboard_incr) +
          ((c : Int) * g.checkerboard_incr + y)) + k) ∧
    (3 * (g.checkerboard_size * g.checkerboard_incr) ^ 2 < 2 ^ 63 →
      wrap64 (3 * (((r : Int) * g.checkerboard_incr + x) *
        (g.checkerboard_size * g.checkerboard_incr) +
          ((c : Int) * g.checkerboard_incr + y)) + k) =
        3 * (((r : Int) * g.checkerboard_incr + x) *
          (g.checkerboard_size * g.checkerboard_incr) +
            ((c : Int) * g.checkerboard_incr + y)) + k) ∧
    output_buffer g rand init
        (wrap64 (3 * (((r : Int) * g.checkerboard_incr + x) *
          (g.checkerboard_size * g.checkerboard_incr) +
            ((c : Int) * g.checkerboard_incr + y)) + k)) =
      if (r ^^^ c) &&& 1 = 0 then
        toUChar (Int.land
          (rand (3 * (((r * g.checkerboard_size.toNat + c) * g.checkerboard_incr.toNat + x) *
            g.checkerboard_incr.toNat + y) + k) : Int) g.random_mask)
      else
        toUChar (Int.xor 255 (Int.land
          (rand (3 * (((r * g.checkerboard_size.toNat + c) * g.checkerboard_incr.toNat + x) *
            g.checkerboard_incr.toNat + y) + k) : Int) g.random_mask)) := by
  obtain ⟨S, I, hS, hI, -, -, hWn⟩ := config_nat_width g hsize hincr hW
  have hSn : g.checkerboard_size.toNat = S := by rw [hS]; exact Int.toNat_ofNat S
  have hIn : g.checkerboard_incr.toNat = I := by rw [hI]; exact Int.toNat_ofNat I
  have hr' : r < S := by rw [hS] at hr; exact_mod_cast hr
  have hc' : c < S := by rw [hS] at hc; exact_mod_cast hc
  have hx' : x < I := by rw [hI] at hx; exact_mod_cast hx
  have hy' : y < I := by rw [hI] at hy; exact_mod_cast hy
  have hidx := index_wrap g S I r c x y k hS hI hWn hr' hc' hx' hy' hk
  have hWc : g.checkerboard_size * g.checkerboard_incr = ((S * I : Nat) : Int) := by
    rw [hS, hI]; push_cast; rfl
  rw [offset_nat_cast g S I r c x y k hS hI]
  refine ⟨?_, hidx, ?_, ?_⟩
  · rw [synthesize_eq, hSn, hIn, hS, hI]
    push_cast
    ring
  · intro h63
    have h63n : 3 * ((S * I) * (S * I)) < 9223372036854775808 := by
      rw [hWc] at h63
      have h : ((3 * ((S * I) * (S * I)) : Nat) : Int) < 2 ^ 63 := by
        push_cast; rw [← sq]; exact_mod_cast h63
      exact_mod_cast h
    rw [← hidx]
    exact index_eq g S I r c x y k hS hI hWn h63n hr' hc' hx' hy' hk
  · rw [← hidx, buffer_at_index g rand init S I r c x y k hS hI hWn hr' hc' hx' hy' hk,
      draw_no_eq, hSn, hIn]
    unfold channel_int
    rw [color_cast]
    have hp : (r ^^^ c) &&& 1 = 0 ∨ (r ^^^ c) &&& 1 = 1 := by
      rw [Nat.and_one_is_mod]; omega
    rcases hp with h | h <;> simp [h]

/-- Witness of C17: the 2 x 2 board of 2 x 2 cells; channel 2 of pixel `(1, 0)` of
cell `(0, 1)` is at offset 20 and comes from draw number 20. -/
theorem C17_draw_order_witness :
    ((synthesize board_2x2_scaled sample_rand).calls : Int) =
      3 * (board_2x2_scaled.checkerboard_size * board_2x2_scaled.checkerboard_incr) ^ 2 ∧
    wrap64 (buffer_pointer board_2x2_scaled ((0 : Nat) : Int) ((1 : Nat) : Int)
        ((1 : Nat) : Int) ((0 : Nat) : Int) + ((2 : Nat) : Int)) =
      wrap64 (3 * ((((0 : Nat) : Int) * board_2x2_scaled.checkerboard_incr +
        ((1 : Nat) : Int)) *
          (board_2x2_scaled.checkerboard_size * board_2x2_scaled.checkerboard_incr) +
            (((1 : Nat) : Int) * board_2x2_scaled.checkerboard_incr + ((0 : Nat) : Int))) +
              ((2 : Nat) : Int)) ∧
    (3 * (board_2x2_scaled.checkerboard_size * board_2x2_scaled.checkerboard_incr) ^ 2
        < 2 ^ 63 →
      wrap64 (3 * ((((0 : Nat) : Int) * board_2x2_scaled.checkerboard_incr +
        ((1 : Nat) : Int)) *
          (board_2x2_scaled.checkerboard_size * board_2x2_scaled.checkerboard_incr) +
            (((1 : Nat) : Int) * board_2x2_scaled.checkerboard_incr + ((0 : Nat) : Int))) +
              ((2 : Nat) : Int)) =
        3 * ((((0 : Nat) : Int) * board_2x2_scaled.checkerboard_incr + ((1 : Nat) : Int)) *
          (board_2x2_scaled.checkerboard_size * board_2x2_scaled.checkerboard_incr) +
            (((1 : Nat) : Int) * board_2x2_scaled.checkerboard_incr + ((0 : Nat) : Int))) +
              ((2 : Nat) : Int)) ∧
    output_buffer board_2x2_scaled sample_rand sample_init
        (wrap64 (3 * ((((0 : Nat) : Int) * board_2x2_scaled.checkerboard_incr +
          ((1 : Nat) : Int)) *
            (board_2x2_scaled.checkerboard_size * board_2x2_scaled.checkerboard_incr) +
              (((1 : Nat) : Int) * board_2x2_scaled.checkerboard_incr + ((0 : Nat) : Int))) +
                ((2 : Nat) : Int))) =
      if (0 ^^^ 1) &&& 1 = 0 then
        toUChar (Int.land
          (sample_rand (3 * (((0 * board_2x2_scaled.checkerboard_size.toNat + 1) *
            board_2x2_scaled.checkerboard_incr.toNat + 1) *
            board_2x2_scaled.checkerboard_incr.toNat + 0) + 2) : Int)
          board_2x2_scaled.random_mask)
      else
        toUChar (Int.xor 255 (Int.land
          (sample_rand (3 * (((0 * board_2x2_scaled.checkerboard_size.toNat + 1) *
            board_2x2_scaled.checkerboard_incr.toNat + 1) *
            board_2x2_scaled.checkerboard_incr.toNat + 0) + 2) : Int)
          board_2x2_scaled.random_mask)) :=
  C17_draw_order board_2x2_scaled sample_rand sample_init (by decide) (by decide) (by decide)
    0 1 1 0 2 (by decide) (by decide) (by decide) (by decide) (by decide)

end Checkerboard
